/-
  Verification of the upscaledb B+tree erase machinery and page object.

  Shallow embedding of src/src/btree_erase.c and src/src/2page/page.cc.
  Machine integers are modelled as Nat; where the C code computes in 32-bit
  unsigned arithmetic the reduction mod 2^32 is explicit.  A node's slot
  array together with its count is modelled as the list of the `count`
  visible slots; each memmove/set_count pair of the source is translated as
  the corresponding atomic list operation.  Fallible paths return Option
  (none = the C code would read or write outside the valid slot range).
-/
import Mathlib

set_option maxHeartbeats 2000000

set_option maxRecDepth 8192

/- Status codes.  Modelled from the spec: the header defining the concrete
   values is not part of src/, so the values are arbitrary distinct
   naturals with 0 = success, exactly as the C code only distinguishes
   zero from non-zero. -/

def HAM_SUCCESS : Nat := 0

def HAM_KEY_NOT_FOUND : Nat := 11

def HAM_OUT_OF_MEMORY : Nat := 12

def HAM_BLOB_NOT_FOUND : Nat := 13

/- Key flag bits.  Modelled from the spec (section 3: "flag bits for
   extended/tiny/small/empty"); keys.h is not part of src/. -/

def KEY_BLOB_SIZE_TINY : Nat := 1

def KEY_BLOB_SIZE_SMALL : Nat := 2

def KEY_BLOB_SIZE_EMPTY : Nat := 4

def KEY_IS_EXTENDED : Nat := 8

def U32 : Nat := 4294967296

/-- Unsigned 32-bit subtraction, as performed on `ham_size_t` values. -/
def u32sub (a b : Nat) : Nat := (a + U32 - b) % U32

/-- The fixed-width key record int_key_t: flags, logical key size, record id
(`ptr`), the inline key bytes, and the extended-blob id region that occupies
the last 8 bytes of the inline area (modelled as a separate field so that a
whole-stride memcpy copies it and `key_get_extended_rid` reads it). -/
structure IntKey where
  flags : Nat
  ksize : Nat
  ptr : Nat
  data : List Nat
  extRid : Nat
deriving DecidableEq

def keyIsExtended (k : IntKey) : Bool := k.flags &&& KEY_IS_EXTENDED != 0

/-- A btree node: leaf bit, leftmost-child pointer, left/right sibling page
ids, and the list of the `count` visible slots. -/
structure BtreeNode where
  isLeaf : Bool
  ptrLeft : Nat
  left : Nat
  right : Nat
  keys : List IntKey
deriving DecidableEq

/-- A page holding a btree node: its own address (`page_get_self`), the
dirty bit and the node payload. -/
structure PageRec where
  self : Nat
  dirty : Bool
  node : BtreeNode
deriving DecidableEq

/-- Modelled from the spec: the blob store (blob.c is not part of src/).
Allocation hands out the next fresh id (a fresh backing-store address, so
never an id already in use); `allocFails` makes allocation fail with
out-of-memory, the failure mode named by the spec. -/
structure BlobStore where
  nextId : Nat
  blobs : List (Nat × List Nat)
  allocFails : Bool
deriving DecidableEq

def blobRead (bs : BlobStore) (id : Nat) : Except Nat (List Nat) :=
  match bs.blobs.find? (fun p => p.1 == id) with
  | some p => .ok p.2
  | none => .error HAM_BLOB_NOT_FOUND

def blobAllocate (bs : BlobStore) (d : List Nat) : Except Nat (BlobStore × Nat) :=
  if bs.allocFails then .error HAM_OUT_OF_MEMORY
  else .ok ({ bs with nextId := bs.nextId + 1, blobs := bs.blobs ++ [(bs.nextId, d)] }, bs.nextId)

def blobFree (bs : BlobStore) (id : Nat) : BlobStore :=
  { bs with blobs := bs.blobs.filter (fun p => p.1 != id) }

/-- Modelled from the spec: the extended-key cache is a set of blob ids
(extkeys.c is not part of src/); `none` = the db has no cache configured. -/
def extkeyCacheRemove (cache : Option (List Nat)) (id : Nat) : Option (List Nat) :=
  match cache with
  | some c => some (c.filter (fun x => x != id))
  | none => none

/-- Environment of a call into btree_erase.c: the db key size, the backend
maxkeys, and the statuses returned by `db_uncouple_all_cursors` (per page
address) and `txn_free_page` — both functions live outside src/, so only
their status results are modelled. -/
structure Env where
  keysize : Nat
  maxkeys : Nat
  uncoupleStatus : Nat → Nat
  freeStatus : Nat → Nat

/-- Modelled from the spec: `minkeys(maxkeys)` is the half-full rebalance
threshold (btree.h is not part of src/). -/
def btree_get_minkeys (maxkeys : Nat) : Nat := maxkeys / 2

/-- Modelled from the spec: the default comparator orders keys by their
inline bytes (memcmp order, shorter prefix first). -/
def keyDataLt : List Nat → List Nat → Bool
  | [], [] => false
  | [], _ :: _ => true
  | _ :: _, [] => false
  | a :: xs, b :: ys => if a < b then true else if b < a then false else keyDataLt xs ys

/-- Modelled from the spec: `btree_get_slot` returns the slot whose key is
the largest one at most `key`, or -1 when `key` precedes slot 0 (section
4.5; btree.c is not part of src/). -/
def btree_get_slot (node : BtreeNode) (key : IntKey) : Int :=
  Int.ofNat (node.keys.takeWhile (fun k => !(keyDataLt key.data k.data))).length - 1

/-- my_copy_key (btree_erase.c:1009): the destination starts as a memcpy of
the whole fixed-width record; when the source is extended its blob is read
and a fresh blob is allocated for the destination (blobs are never shared).
Returns (status, blob store, destination key); on a blob error the
destination still holds the plain copy, as after the C memcpy. -/
def my_copy_key (bs : BlobStore) (rhs : IntKey) : Nat × BlobStore × IntKey :=
  if keyIsExtended rhs then
    match blobRead bs rhs.extRid with
    | .error st => (st, bs, rhs)
    | .ok recd =>
      match blobAllocate bs recd with
      | .error st => (st, bs, rhs)
      | .ok (bs2, newid) => (HAM_SUCCESS, bs2, { rhs with extRid := newid })
  else (HAM_SUCCESS, bs, rhs)

/-- Mask clearing the leaf-only blob flags, as a 32-bit and-not. -/
def stripLeafFlags (f : Nat) : Nat := f &&& 4294967288

structure ReplaceResult where
  status : Nat
  page : PageRec
  bs : BlobStore
  cache : Option (List Nat)
deriving DecidableEq

def setKeyAt (p : PageRec) (slot : Nat) (k : IntKey) : PageRec :=
  { p with node := { p.node with keys := p.node.keys.set slot k } }

/-- my_replace_key (btree_erase.c:1048).  Order of effects follows the C
code: uncouple cursors (failure returns the status via db_set_error), free
the destination's old extended blob and drop it from the cache, copy the
source's flags and inline bytes (including the extended-rid region), strip
the leaf-only flags for internal keys, then — only if the source is
extended — read its blob and allocate a fresh copy; the key size is set and
the page marked dirty only after that, so a blob failure returns with the
destination already overwritten and the old blob already freed. -/
def my_replace_key (env : Env) (bs : BlobStore) (cache : Option (List Nat))
    (page : PageRec) (slot : Nat) (rhs : IntKey) (internalKey : Bool) :
    Option ReplaceResult :=
  if env.uncoupleStatus page.self != 0 then
    some ⟨env.uncoupleStatus page.self, page, bs, cache⟩
  else
    match page.node.keys.get? slot with
    | none => none
    | some lhs0 =>
      let bs1 := if keyIsExtended lhs0 then blobFree bs lhs0.extRid else bs
      let cache1 := if keyIsExtended lhs0 then extkeyCacheRemove cache lhs0.extRid else cache
      let lhs1 : IntKey := { lhs0 with flags := rhs.flags, data := rhs.data, extRid := rhs.extRid }
      let lhs2 := if internalKey then { lhs1 with flags := stripLeafFlags lhs1.flags } else lhs1
      let page1 := setKeyAt page slot lhs2
      if keyIsExtended rhs then
        match blobRead bs1 rhs.extRid with
        | .error st => some ⟨st, page1, bs1, cache1⟩
        | .ok recd =>
          match blobAllocate bs1 recd with
          | .error st => some ⟨st, page1, bs1, cache1⟩
          | .ok (bs2, newid) =>
            let lhs3 := { lhs2 with extRid := newid, ksize := rhs.ksize }
            some ⟨HAM_SUCCESS, { setKeyAt page slot lhs3 with dirty := true }, bs2, cache1⟩
      else
        let lhs3 := { lhs2 with ksize := rhs.ksize }
        some ⟨HAM_SUCCESS, { setKeyAt page slot lhs3 with dirty := true }, bs1, cache1⟩

structure MergeResult where
  ret : Option Nat
  page : PageRec
  sib : PageRec
  anc : Option PageRec
  other : Option PageRec
  bs : BlobStore
  cache : Option (List Nat)
  err : Nat
  mergepage : Option Nat
  freed : List Nat
deriving DecidableEq

/-- The sibling-linked-list patch of my_merge_pages (btree_erase.c:543-570):
if the merged-away sibling was the page's left neighbor, adopt the
sibling's left neighbor and patch that page's right pointer; symmetric on
the right.  Returns the updated page and the patched neighbor page. -/
def mergeLink (fetch : Nat → Option PageRec) (page sib : PageRec) (sibSelf : Nat) :
    Option (PageRec × Option PageRec) :=
  if page.node.left == sibSelf then
    if sib.node.left != 0 then
      match fetch sib.node.left with
      | none => none
      | some p =>
        some ({ page with node := { page.node with left := sib.node.left } },
              some { p with node := { p.node with right := sib.node.right }, dirty := true })
    else some ({ page with node := { page.node with left := 0 } }, none)
  else if page.node.right == sibSelf then
    if sib.node.right != 0 then
      match fetch sib.node.right with
      | none => none
      | some p =>
        some ({ page with node := { page.node with right := sib.node.right } },
              some { p with node := { p.node with left := sib.node.left }, dirty := true })
    else some ({ page with node := { page.node with right := 0 } }, none)
  else some (page, none)

/-- The scratchpad mergepage clearing of my_merge_pages
(btree_erase.c:575-578): cleared when it named either merged page. -/
def mergeClearMp (mergepage : Option Nat) (pageSelf sibSelf : Nat) : Option Nat :=
  match mergepage with
  | some m => if m == pageSelf || m == sibSelf then none else some m
  | none => none

/-- The merged page before the link patch: the sibling's slots appended at
the tail, page marked dirty (btree_erase.c:536-540). -/
def mergeFilled (page sib : PageRec) : PageRec :=
  { page with
    node := { page.node with keys := page.node.keys ++ sib.node.keys }
    dirty := true }

/-- The merged-away sibling: count zeroed and marked dirty
(btree_erase.c:539-541). -/
def mergeEmptied (sib : PageRec) : PageRec :=
  { sib with node := { sib.node with keys := [] }, dirty := true }

/-- Second half of my_merge_pages (btree_erase.c:528-589): bulk-copy the
sibling's slots to the page's tail, zero the sibling, patch the doubly
linked sibling list, clear the scratchpad mergepage when it named either
page, free the sibling and return it. -/
def mergeTail (env : Env) (fetch : Nat → Option PageRec) (bs : BlobStore)
    (cache : Option (List Nat)) (page sib : PageRec) (ancOpt : Option PageRec)
    (pageSelf sibSelf : Nat) (mergepage : Option Nat) : Option MergeResult :=
  match mergeLink fetch (mergeFilled page sib) sib sibSelf with
  | none => none
  | some (page2, other) =>
    if env.freeStatus sibSelf != 0 then
      some ⟨none, page2, mergeEmptied sib, ancOpt, other, bs, cache, env.freeStatus sibSelf,
            mergeClearMp mergepage pageSelf sibSelf, []⟩
    else
      some ⟨some sibSelf, page2, mergeEmptied sib, ancOpt, other, bs, cache, 0,
            mergeClearMp mergepage pageSelf sibSelf, [sibSelf]⟩

/-- my_merge_pages (btree_erase.c:459).  A failing cursor uncouple returns
the null page with no error recorded.  For internal nodes the anchor
separator (at the slot found for the sibling's first key) is appended to
the page with its child pointer set to the sibling's ptr_left before the
bulk copy. -/
def my_merge_pages (env : Env) (fetch : Nat → Option PageRec) (bs : BlobStore)
    (cache : Option (List Nat)) (page sib : PageRec) (anchor : Nat)
    (mergepage : Option Nat) : Option MergeResult :=
  let anc? : Option (Option PageRec) :=
    if anchor != 0 then
      match fetch anchor with
      | some a => some (some a)
      | none => none
    else some none
  match anc? with
  | none => none
  | some ancOpt =>
    if env.uncoupleStatus page.self != 0 then
      some ⟨none, page, sib, ancOpt, none, bs, cache, 0, mergepage, []⟩
    else if env.uncoupleStatus sib.self != 0 then
      some ⟨none, page, sib, ancOpt, none, bs, cache, 0, mergepage, []⟩
    else if (match ancOpt with
             | some a => env.uncoupleStatus a.self != 0
             | none => false) then
      some ⟨none, page, sib, ancOpt, none, bs, cache, 0, mergepage, []⟩
    else if page.node.isLeaf then
      mergeTail env fetch bs cache page sib ancOpt page.self sib.self mergepage
    else
      match sib.node.keys.get? 0 with
      | none => none
      | some bte =>
        match ancOpt with
        | none => none
        | some ancp =>
          let slot := btree_get_slot ancp.node bte
          if slot < 0 then none
          else
            match ancp.node.keys.get? slot.toNat with
            | none => none
            | some bteRhs =>
              let r := my_copy_key bs bteRhs
              if r.1 != 0 then
                some ⟨none, page, sib, some ancp, none, r.2.1, cache, r.1, mergepage, []⟩
              else
                let sep := { r.2.2 with ptr := sib.node.ptrLeft }
                let page1 := { page with
                  node := { page.node with keys := page.node.keys ++ [sep] } }
                mergeTail env fetch r.2.1 cache page1 sib (some ancp) page.self sib.self
                  mergepage

structure ShiftResult where
  ret : Option Nat
  page : PageRec
  sib : PageRec
  anc : PageRec
  bs : BlobStore
  cache : Option (List Nat)
  err : Nat
  mergepage : Option Nat
  bulkMoved : Nat
deriving DecidableEq

/-- The cleanup epilogue of my_shift_pages (btree_erase.c:996-1006): both
pages and the anchor are marked dirty and the scratchpad mergepage is
cleared.  `moved` is a ghost output recording the slot count of the bulk
memmove. -/
def shiftCleanup (page sib anc : PageRec) (bs : BlobStore) (cache : Option (List Nat))
    (moved : Nat) : Option ShiftResult :=
  some ⟨none, { page with dirty := true }, { sib with dirty := true },
        { anc with dirty := true }, bs, cache, 0, none, moved⟩

/-- Bulk move of the sibling-to-page branch (btree_erase.c:699-804): the
second anchor-key append for internal nodes, the memmove of `c` slots from
the sibling's head to the page's tail, the sibling's new ptr_left and the
anchor replacement, and the final shift-once-more for internal nodes. -/
def shiftFromSibMove (env : Env) (bs : BlobStore) (cache : Option (List Nat))
    (page sib anc : PageRec) (anchor : Nat) (mergepage : Option Nat)
    (intern : Bool) (c : Nat) : Option ShiftResult :=
  let page1 := { page with
    node := { page.node with keys := page.node.keys ++ sib.node.keys.take c } }
  let sib1 := { sib with node := { sib.node with keys := sib.node.keys.drop c } }
  if intern then
    match sib1.node.keys.get? 0 with
    | none => none
    | some bte2 =>
      let sib2 := { sib1 with node := { sib1.node with ptrLeft := bte2.ptr } }
      if anchor != 0 then
        let slot2 := btree_get_slot anc.node bte2
        if slot2 < 0 then none
        else
          match my_replace_key env bs cache anc slot2.toNat bte2 true with
          | none => none
          | some rr =>
            if rr.status != 0 then
              some ⟨none, page1, sib2, rr.page, rr.bs, rr.cache, rr.status, mergepage, c⟩
            else
              let sib3 := { sib2 with node := { sib2.node with keys := sib2.node.keys.tail } }
              shiftCleanup page1 sib3 rr.page rr.bs rr.cache c
      else
        let sib3 := { sib2 with node := { sib2.node with keys := sib2.node.keys.tail } }
        shiftCleanup page1 sib3 anc bs cache c
  else
    match sib1.node.keys.get? 0 with
    | none => none
    | some bte2 =>
      let slot2 := btree_get_slot anc.node bte2
      if slot2 < 0 then none
      else
        match my_replace_key env bs cache anc slot2.toNat bte2 true with
        | none => none
        | some rr =>
          if rr.status != 0 then
            some ⟨none, page1, sib1, rr.page, rr.bs, rr.cache, rr.status, mergepage, c⟩
          else
            shiftCleanup page1 sib1 rr.page rr.bs rr.cache c

/-- Count computation of the sibling-to-page branch (btree_erase.c:693-697):
`c = (count(sib) - count(page)) / 2` in 32-bit unsigned arithmetic on the
counts as they stand after the internal pre-rotation; zero aborts to
cleanup, internal nodes then use one less. -/
def shiftFromSibBulk (env : Env) (bs : BlobStore) (cache : Option (List Nat))
    (page sib anc : PageRec) (anchor : Nat) (mergepage : Option Nat)
    (intern : Bool) (slot : Int) : Option ShiftResult :=
  let c0 := u32sub sib.node.keys.length page.node.keys.length / 2
  if c0 == 0 then shiftCleanup page sib anc bs cache 0
  else
    let c := if intern then c0 - 1 else c0
    if intern then
      match anc.node.keys.get? slot.toNat with
      | none => none
      | some bteRhs2 =>
        let r := my_copy_key bs bteRhs2
        if r.1 != 0 then
          some ⟨none, page, sib, anc, r.2.1, cache, r.1, mergepage, 0⟩
        else
          let sep2 := { r.2.2 with ptr := sib.node.ptrLeft }
          let page1 := { page with
            node := { page.node with keys := page.node.keys ++ [sep2] } }
          shiftFromSibMove env r.2.1 cache page1 sib anc anchor mergepage intern c
    else
      shiftFromSibMove env bs cache page sib anc anchor mergepage intern c

/-- The sibling-to-page branch of my_shift_pages (btree_erase.c:628-804).
For internal nodes the separator is first rotated through the anchor: the
anchor key is appended to the page with the sibling's ptr_left as child
pointer, the sibling's ptr_left becomes its first key's child, the anchor
key is replaced by the sibling's first key (status discarded, as in the C),
and the sibling shifts left by one. -/
def shiftFromSib (env : Env) (bs : BlobStore) (cache : Option (List Nat))
    (page sib anc : PageRec) (anchor : Nat) (mergepage : Option Nat)
    (intern : Bool) : Option ShiftResult :=
  if intern then
    match sib.node.keys.get? 0 with
    | none => none
    | some bte =>
      let slot := btree_get_slot anc.node bte
      if slot < 0 then none
      else
        match anc.node.keys.get? slot.toNat with
        | none => none
        | some bteRhs =>
          let r := my_copy_key bs bteRhs
          if r.1 != 0 then
            some ⟨none, page, sib, anc, r.2.1, cache, r.1, mergepage, 0⟩
          else
            let sep := { r.2.2 with ptr := sib.node.ptrLeft }
            let page1 := { page with
              node := { page.node with keys := page.node.keys ++ [sep] } }
            let sib1 := { sib with node := { sib.node with ptrLeft := bte.ptr } }
            match my_replace_key env r.2.1 cache anc slot.toNat bte true with
            | none => none
            | some rr =>
              let sib2 := { sib1 with node := { sib1.node with keys := sib1.node.keys.tail } }
              shiftFromSibBulk env rr.bs rr.cache page1 sib2 rr.page anchor mergepage
                intern slot
  else
    shiftFromSibBulk env bs cache page sib anc anchor mergepage intern 0

/-- Tail of the page-to-sibling branch (btree_erase.c:915-993): bulk move
of the page's top `c` slots to the sibling's head, for internal nodes the
promotion of the page's new last key into the sibling's ptr_left (freeing
that key's extended blob), then the anchor replacement at slot+1. -/
def shiftToSibMove (env : Env) (bs : BlobStore) (cache : Option (List Nat))
    (page sib anc : PageRec) (anchor : Nat) (mergepage : Option Nat)
    (intern : Bool) (c : Nat) : Option ShiftResult :=
  let moved := (page.node.keys.drop (page.node.keys.length - c)).take c
  let sib1 := { sib with node := { sib.node with keys := moved ++ sib.node.keys } }
  let page1 := { page with
    node := { page.node with keys := page.node.keys.take (page.node.keys.length - c) } }
  let next : Option (PageRec × PageRec × BlobStore × Option (List Nat) × IntKey) :=
    if intern then
      match page1.node.keys.getLast? with
      | none => none
      | some lastK =>
        let sib2 := { sib1 with node := { sib1.node with ptrLeft := lastK.ptr } }
        let bs1 := if keyIsExtended lastK then blobFree bs lastK.extRid else bs
        let cache1 := if keyIsExtended lastK then extkeyCacheRemove cache lastK.extRid
                      else cache
        let page2 := { page1 with node := { page1.node with keys := page1.node.keys.dropLast } }
        some (page2, sib2, bs1, cache1, lastK)
    else
      match sib1.node.keys.get? 0 with
      | none => none
      | some k0 => some (page1, sib1, bs, cache, k0)
  match next with
  | none => none
  | some (page2, sib2, bs1, cache1, bte) =>
    if anchor != 0 then
      let slot3 := btree_get_slot anc.node bte
      match my_replace_key env bs1 cache1 anc (slot3 + 1).toNat bte true with
      | none => none
      | some rr =>
        if rr.status != 0 then
          some ⟨none, page2, sib2, rr.page, rr.bs, rr.cache, rr.status, mergepage, c⟩
        else shiftCleanup page2 sib2 rr.page rr.bs rr.cache c
    else shiftCleanup page2 sib2 anc bs1 cache1 c

/-- Count computation of the page-to-sibling branch (btree_erase.c:880-913)
plus the second separator insertion for internal nodes: the sibling shifts
right by one, its slot 0 is replaced by the anchor key and given the
sibling's ptr_left as child pointer. -/
def shiftToSibBulk (env : Env) (bs : BlobStore) (cache : Option (List Nat))
    (page sib anc : PageRec) (anchor : Nat) (mergepage : Option Nat)
    (intern : Bool) (slot : Int) : Option ShiftResult :=
  let c0 := u32sub page.node.keys.length sib.node.keys.length / 2
  if c0 == 0 then shiftCleanup page sib anc bs cache 0
  else
    let c := if intern then c0 - 1 else c0
    if intern then
      match anc.node.keys.get? slot.toNat with
      | none => none
      | some bteRhs2 =>
        let sibT := { sib with node := { sib.node with keys :=
          match sib.node.keys with
          | [] => []
          | k :: _ => k :: sib.node.keys.dropLast } }
        match my_replace_key env bs cache sibT 0 bteRhs2 true with
        | none => none
        | some rr =>
          if rr.status != 0 then
            some ⟨none, page, rr.page, anc, rr.bs, rr.cache, rr.status, mergepage, 0⟩
          else
            match rr.page.node.keys.get? 0 with
            | none => none
            | some k0 =>
              let newHead := { k0 with ptr := sib.node.ptrLeft }
              let sib2 := { sib with node := { sib.node with keys := newHead :: sib.node.keys } }
              shiftToSibMove env rr.bs rr.cache page sib2 anc anchor mergepage intern c
    else
      shiftToSibMove env bs cache page sib anc anchor mergepage intern c

/-- The page-to-sibling branch of my_shift_pages (btree_erase.c:809-994).
For internal nodes the separator first rotates down into the sibling: the
sibling shifts right by one, its new slot 0 is a fresh copy of the anchor
key with the old ptr_left as child, the ptr_left becomes the page's last
key's child pointer, and that last key replaces the anchor separator. -/
def shiftToSib (env : Env) (bs : BlobStore) (cache : Option (List Nat))
    (page sib anc : PageRec) (anchor : Nat) (mergepage : Option Nat)
    (intern : Bool) : Option ShiftResult :=
  if intern then
    match sib.node.keys.get? 0 with
    | none => none
    | some bte =>
      let slot := btree_get_slot anc.node bte
      if slot < 0 then none
      else
        match anc.node.keys.get? slot.toNat with
        | none => none
        | some bteRhs =>
          let r := my_copy_key bs bteRhs
          if r.1 != 0 then
            some ⟨none, page,
              { sib with node := { sib.node with keys := r.2.2 :: sib.node.keys.dropLast } },
              anc, r.2.1, cache, r.1, mergepage, 0⟩
          else
            let newk := { r.2.2 with ptr := sib.node.ptrLeft }
            match page.node.keys.getLast? with
            | none => none
            | some lastK =>
              let sib1 := { sib with node :=
                { sib.node with keys := newk :: sib.node.keys, ptrLeft := lastK.ptr } }
              match my_replace_key env r.2.1 cache anc slot.toNat lastK true with
              | none => none
              | some rr =>
                if rr.status != 0 then
                  some ⟨none, page, sib1, rr.page, rr.bs, rr.cache, rr.status, mergepage, 0⟩
                else
                  let page1 := { page with
                    node := { page.node with keys := page.node.keys.dropLast } }
                  shiftToSibBulk env rr.bs rr.cache page1 sib1 rr.page anchor mergepage
                    intern slot
  else
    shiftToSibBulk env bs cache page sib anc anchor mergepage intern 0

/-- my_shift_pages (btree_erase.c:592).  Equal counts return immediately
(before any cursor uncoupling or cleanup); a failing cursor uncouple
returns the null page with no error recorded; otherwise one of the two
mirrored branches runs, ending in the dirty-marking cleanup. -/
def my_shift_pages (env : Env) (bs : BlobStore) (cache : Option (List Nat))
    (page sib anc : PageRec) (anchor : Nat) (mergepage : Option Nat) :
    Option ShiftResult :=
  if page.node.keys.length == sib.node.keys.length then
    some ⟨none, page, sib, anc, bs, cache, 0, mergepage, 0⟩
  else
    let intern := !page.node.isLeaf
    if env.uncoupleStatus page.self != 0 then
      some ⟨none, page, sib, anc, bs, cache, 0, mergepage, 0⟩
    else if env.uncoupleStatus sib.self != 0 then
      some ⟨none, page, sib, anc, bs, cache, 0, mergepage, 0⟩
    else if env.uncoupleStatus anc.self != 0 then
      some ⟨none, page, sib, anc, bs, cache, 0, mergepage, 0⟩
    else if sib.node.keys.length ≥ page.node.keys.length then
      shiftFromSib env bs cache page sib anc anchor mergepage intern
    else
      shiftToSib env bs cache page sib anc anchor mergepage intern

/-- The action my_rebalance decides on (btree_erase.c:349): nothing, a
root-collapse candidate (the page at ptr_left), a merge or a shift of two
pages through an anchor. -/
inductive RebalanceAction where
  | noAction : RebalanceAction
  | collapse : Nat → RebalanceAction
  | mergeAct : Nat → Nat → Nat → RebalanceAction
  | shiftAct : Nat → Nat → Nat → RebalanceAction
deriving DecidableEq

/-- my_rebalance (btree_erase.c:349) as the decision it reaches.  `leftp`
and `rightp` are the sibling pages the function fetches (consulted only
when the corresponding search-path neighbor id is non-zero). -/
def my_rebalance (env : Env) (page : PageRec) (leftp rightp : Option PageRec)
    (left right lanchor ranchor parentSelf : Nat) (mergepage : Option Nat) :
    RebalanceAction :=
  if mergepage.isNone then .noAction
  else
    let minkeys := btree_get_minkeys env.maxkeys
    let leftpage := if left != 0 then leftp else none
    let rightpage := if right != 0 then rightp else none
    let fewleft := match leftpage with
      | some lp => decide (lp.node.keys.length ≤ minkeys)
      | none => false
    let fewright := match rightpage with
      | some rp => decide (rp.node.keys.length ≤ minkeys)
      | none => false
    let leftCount := match leftpage with
      | some lp => lp.node.keys.length
      | none => 0
    let rightCount := match rightpage with
      | some rp => rp.node.keys.length
      | none => 0
    let leftSelf := match leftpage with
      | some lp => lp.self
      | none => 0
    let rightSelf := match rightpage with
      | some rp => rp.self
      | none => 0
    if leftpage.isNone && rightpage.isNone then
      if page.node.isLeaf then .noAction else .collapse page.node.ptrLeft
    else if (leftpage.isNone || fewleft) && (rightpage.isNone || fewright) then
      if lanchor != parentSelf then .mergeAct page.self rightSelf ranchor
      else .mergeAct leftSelf page.self lanchor
    else if leftpage.isSome && fewleft && rightpage.isSome && !fewright then
      if !(ranchor == parentSelf) && (mergepage == some page.self) then
        .mergeAct leftSelf page.self lanchor
      else .shiftAct page.self rightSelf ranchor
    else if leftpage.isSome && !fewleft && rightpage.isSome && fewright then
      if !(lanchor == parentSelf) && (mergepage == some page.self) then
        .mergeAct page.self rightSelf ranchor
      else .shiftAct leftSelf page.self lanchor
    else if lanchor == ranchor then
      if leftCount ≤ rightCount then .shiftAct page.self rightSelf ranchor
      else .shiftAct leftSelf page.self lanchor
    else if lanchor == parentSelf then .shiftAct leftSelf page.self lanchor
    else .shiftAct page.self rightSelf ranchor

/-- The btree as seen by btree_erase: the root page address (0 = no root),
the page store, the backend dirty bit and the freed-page log. -/
structure BtreeState where
  rootpage : Nat
  pages : List (Nat × PageRec)
  backendDirty : Bool
  freedPages : List Nat
deriving DecidableEq

def fetchPage (st : BtreeState) (addr : Nat) : Option PageRec :=
  (st.pages.find? (fun p => p.1 == addr)).map (fun p => p.2)

/-- btree_erase (btree_erase.c:126) with the entry of my_erase_recursive
(btree_erase.c:195-198).  A zero root address fails with key-not-found; so
does an empty root node, checked first thing in the recursion.  The rest of
the recursion is abstracted as the continuation `deep`, which returns the
page to collapse the root to (if any), the db error register and the new
state; the collapse sets the root pointer, marks the backend dirty and
frees the old root page. -/
def btree_erase (deep : BtreeState → Option Nat × Nat × BtreeState)
    (st : BtreeState) : Option (Nat × BtreeState) :=
  if st.rootpage == 0 then some (HAM_KEY_NOT_FOUND, st)
  else
    match fetchPage st st.rootpage with
    | none => none
    | some root =>
      if root.node.keys.length == 0 then some (HAM_KEY_NOT_FOUND, st)
      else
        let r := deep st
        if r.2.1 != 0 then some (r.2.1, r.2.2)
        else
          match r.1 with
          | some newroot =>
            some (HAM_SUCCESS,
              { r.2.2 with
                rootpage := newroot
                backendDirty := true
                freedPages := r.2.2.freedPages ++ [st.rootpage] })
          | none => some (HAM_SUCCESS, r.2.2)

/- ===== Page object (src/src/2page/page.cc) and MurmurHash3_x86_32 ===== -/

/-- Left rotation of a 32-bit value, written arithmetically:
`rotl32 x r = ((x << r) | (x >> (32-r))) mod 2^32` for `x < 2^32`. -/
def rotl32 (x r : Nat) : Nat := x % 2 ^ (32 - r) * 2 ^ r + x / 2 ^ (32 - r)

/-- The per-block key mixing of MurmurHash3_x86_32:
`k *= c1; k = rotl(k,15); k *= c2`. -/
def murmurMixK (k : Nat) : Nat := rotl32 (k * 0xcc9e2d51 % U32) 15 * 0x1b873593 % U32

/-- One body round of MurmurHash3_x86_32:
`h ^= mix(k); h = rotl(h,13); h = h*5 + 0xe6546b64`. -/
def murmurStep (h k : Nat) : Nat := (rotl32 (h ^^^ murmurMixK k) 13 * 5 + 0xe6546b64) % U32

def murmurBody (h : Nat) (ks : List Nat) : Nat := ks.foldl murmurStep h

/-- Little-endian 32-bit blocks of a byte list; the 1-3 trailing bytes are
left to the tail computation. -/
def leBlocks : List Nat → List Nat
  | b0 :: b1 :: b2 :: b3 :: rest =>
    (b0 % 256 + b1 % 256 * 256 + b2 % 256 * 65536 + b3 % 256 * 16777216) :: leBlocks rest
  | _ => []

/-- The tail word of MurmurHash3_x86_32 (1-3 trailing bytes, xored in at
bit offsets 0, 8, 16 — disjoint, hence a sum). -/
def murmurTailK : List Nat → Nat
  | [t0] => t0 % 256
  | [t0, t1] => t0 % 256 + t1 % 256 * 256
  | [t0, t1, t2] => t0 % 256 + t1 % 256 * 256 + t2 % 256 * 65536
  | _ => 0

def xorshift (s h : Nat) : Nat := h ^^^ (h >>> s)

/-- The finalization mix of MurmurHash3_x86_32. -/
def fmix32 (h : Nat) : Nat :=
  let h1 := xorshift 16 h
  let h2 := h1 * 0x85ebca6b % U32
  let h3 := xorshift 13 h2
  let h4 := h3 * 0xc2b2ae35 % U32
  xorshift 16 h4

/-- Modelled from the spec: MurmurHash3_x86_32, the hash Page::flush
stamps (its 3rdparty implementation file is not under src/; the spec names
the function and fixes the payload and the seed).  Body over the 4-byte
little-endian blocks, tail mix over the 1-3 trailing bytes, xor of the
length, finalization, per the published reference algorithm the spec
names. -/
def MurmurHash3_x86_32 (bytes : List Nat) (seed : Nat) : Nat :=
  let len := bytes.length
  let t := bytes.drop (len / 4 * 4)
  let hb := murmurBody (seed % U32) (leBlocks bytes)
  let h1 := if t.isEmpty then hb else hb ^^^ murmurMixK (murmurTailK t)
  fmix32 (h1 ^^^ len % U32)

/-- Page::PersistedData (2page/page.cc): raw byte buffer, dirty bit,
without-header bit, backing-store address and buffer size. -/
structure PersistedData where
  raw_data : List Nat
  is_dirty : Bool
  is_without_header : Bool
  address : Nat
  size : Nat
deriving DecidableEq

/-- Modelled from the spec: sizeof(PPageHeader) (page.h is not part of
src/).  The header holds the 32-bit CRC field in its first four bytes and
counts one payload byte, so the payload starts at offset 12 and the
payload length passed to the hash is `size - (sizeof(PPageHeader) - 1)
= size - 12`. -/
def sizeofPPageHeader : Nat := 13

/-- The payload bytes hashed by Page::flush: the buffer past the header,
with the length the C code passes. -/
def pagePayload (pd : PersistedData) : List Nat :=
  (pd.raw_data.drop (sizeofPPageHeader - 1)).take (pd.size - (sizeofPPageHeader - 1))

def encodeLE4 (x : Nat) : List Nat :=
  [x % 256, x / 256 % 256, x / 65536 % 256, x / 16777216 % 256]

def decodeLE4 : List Nat → Nat
  | b0 :: b1 :: b2 :: b3 :: _ => b0 + b1 * 256 + b2 * 65536 + b3 * 16777216
  | _ => 0

/-- The CRC field of a page buffer (first four header bytes, little
endian). -/
def pageCrcField (pd : PersistedData) : Nat := decodeLE4 pd.raw_data

/-- The CRC stamp of Page::flush: MurmurHash3_x86_32 of the payload,
seeded with the page address truncated to 32 bits, written into the
header's crc32 field. -/
def stampCrc (pd : PersistedData) : PersistedData :=
  { pd with raw_data :=
      encodeLE4 (MurmurHash3_x86_32 (pagePayload pd) (pd.address % U32))
        ++ pd.raw_data.drop 4 }

/-- Page::flush (2page/page.cc:72-88).  A clean page is a no-op.  A dirty
page first gets the CRC stamp when CRC32 is enabled and the page carries a
header, then the whole buffer is appended to the device write log, then
the dirty bit is cleared. -/
def flush (crc32Enabled : Bool) (pd : PersistedData)
    (writes : List (Nat × List Nat)) : PersistedData × List (Nat × List Nat) :=
  if pd.is_dirty then
    let pd1 := if crc32Enabled && !pd.is_without_header then stampCrc pd else pd
    ({ pd1 with is_dirty := false }, writes ++ [(pd1.address, pd1.raw_data)])
  else (pd, writes)

/-- The Page object as deep_copy_data sees it: the primary descriptor, a
flag recording whether the primary is the inline descriptor, and the
cached node proxy. -/
structure PageObj where
  datap : PersistedData
  primaryIsInline : Bool
  node_proxy : Option Unit
deriving DecidableEq

/-- Page::deep_copy_data (2page/page.cc:90-108): remember the previously
primary descriptor when it was not the inline one, install a fresh
descriptor whose buffer is a memcpy of `size` bytes of the old buffer,
destroy the node proxy, and return the old non-inline descriptor (or
nil). -/
def deep_copy_data (p : PageObj) : PageObj × Option PersistedData :=
  let ret := if p.primaryIsInline then none else some p.datap
  let pd := { p.datap with raw_data := p.datap.raw_data.take p.datap.size }
  ({ datap := pd, primaryIsInline := false, node_proxy := none }, ret)

/- ===== Concrete fixtures used by witnesses and counterexamples ===== -/

def envOk : Env := ⟨8, 8, fun _ => 0, fun _ => 0⟩

def envFail : Env := ⟨8, 8, fun _ => 5, fun _ => 0⟩

/-- An environment where only the cursor uncouple on page 300 (the sibling
in the merge fixtures) fails. -/
def envFailSib : Env := ⟨8, 8, fun a => if a == 300 then 5 else 0, fun _ => 0⟩

/-- An environment where only the cursor uncouple on page 400 (the anchor
in the fixtures) fails. -/
def envFailAnc : Env := ⟨8, 8, fun a => if a == 400 then 5 else 0, fun _ => 0⟩

def bs0 : BlobStore := ⟨500, [], false⟩

def mkKey (d p : Nat) : IntKey := ⟨0, 1, p, [d], 0⟩

def pageP : PageRec :=
  ⟨100, false, ⟨true, 0, 200, 300, (List.range 8).map (fun i => mkKey (40 + i) (1000 + i))⟩⟩

def leftP : PageRec :=
  ⟨200, false, ⟨true, 0, 0, 100, (List.range 6).map (fun i => mkKey (20 + i) (2000 + i))⟩⟩

def rightP : PageRec :=
  ⟨300, false, ⟨true, 0, 100, 0, (List.range 5).map (fun i => mkKey (60 + i) (3000 + i))⟩⟩

def ancP : PageRec := ⟨400, false, ⟨false, 200, 0, 0, [mkKey 0 100]⟩⟩

def sibEq : PageRec := { leftP with self := 201 }

def shiftDummy : ShiftResult := ⟨none, pageP, pageP, pageP, bs0, none, 0, none, 0⟩

def rC3 : ShiftResult :=
  (my_shift_pages envOk bs0 none leftP pageP ancP 400 (some 777)).getD shiftDummy

def pgI : PageRec := ⟨100, false, ⟨false, 50, 0, 300, [mkKey 10 11, mkKey 12 13]⟩⟩

def sbI : PageRec := ⟨300, false, ⟨false, 60, 100, 0, [mkKey 30 31, mkKey 32 33]⟩⟩

def ancI : PageRec := ⟨400, false, ⟨false, 100, 0, 0, [mkKey 5 100, mkKey 20 300]⟩⟩

def fetchI : Nat → Option PageRec := fun a => if a == 400 then some ancI else none

def mergeDummy : MergeResult := ⟨none, pgI, sbI, none, none, bs0, none, 0, none, []⟩

def rC2 : MergeResult :=
  (my_merge_pages envOk fetchI bs0 none pgI sbI 400 none).getD mergeDummy

def stEmptyRoot : BtreeState := ⟨0, [], false, []⟩

def rootZeroPage : PageRec := ⟨5, false, ⟨true, 0, 0, 0, []⟩⟩

def stZeroCount : BtreeState := ⟨5, [(5, rootZeroPage)], false, []⟩

def rootOneKey : PageRec := ⟨5, false, ⟨true, 0, 0, 0, [mkKey 1 1]⟩⟩

def stOneKey : BtreeState := ⟨5, [(5, rootOneKey)], false, []⟩

def bsC1 : BlobStore := ⟨300, [(100, [1, 2, 3]), (200, [9, 9, 9, 9])], true⟩

def rhsKeyC1 : IntKey := ⟨KEY_IS_EXTENDED, 24, 88, [9, 9, 9], 200⟩

def pageC1 : PageRec := ⟨10, false, ⟨true, 0, 0, 0, [⟨KEY_IS_EXTENDED, 20, 77, [1, 2, 3], 100⟩]⟩⟩

def bsC6 : BlobStore := ⟨300, [(100, [5, 6])], false⟩

def rhsC6 : IntKey := ⟨KEY_IS_EXTENDED, 9, 44, [5, 5], 100⟩

/-- The Nat the code's bulk memmove in my_shift_pages moves, expressed on
the two counts at entry: for leaves half the difference, for internal
nodes the count computed after the separator pre-rotation has adjusted
each count by one, less one more (zero when that computation yields
zero). -/
def expectedShiftMoved (n s : Nat) (intern : Bool) : Nat :=
  let big := max n s
  let small := min n s
  if intern then
    let c0 := u32sub (big - 1) (small + 1) / 2
    if c0 = 0 then 0 else c0 - 1
  else (big - small) / 2

def pdW : PersistedData :=
  ⟨[9, 9, 9, 9, 1, 2, 3, 4, 5, 6, 7, 8, 21, 22, 23, 24], true, false, 3, 16⟩

def pdA : PersistedData :=
  ⟨[0, 0, 0, 0, 1, 2, 3, 4, 5, 6, 7, 8, 21, 22, 23, 24], true, false, 0, 16⟩

def pdB : PersistedData := { pdA with address := 4294967296 }

def pdX : PersistedData := { pdA with address := 1 }

def pdY : PersistedData := { pdA with address := 2 }

def pageObjW : PageObj := ⟨pdW, true, some ()⟩

-- ===== Theorems =====

/- Helper lemmas about 32-bit arithmetic and the hash mixing steps. -/

theorem U32_eq : U32 = 2 ^ 32 := by norm_num [U32]

theorem U32_pos : 0 < U32 := by norm_num [U32]

theorem mod_U32_lt (a : Nat) : a % U32 < U32 := Nat.mod_lt _ U32_pos

theorem xor_lt_U32 {a b : Nat} (ha : a < U32) (hb : b < U32) : a ^^^ b < U32 := by
  rw [U32_eq] at ha hb ⊢
  exact Nat.xor_lt_two_pow ha hb

theorem shiftRight_lt_U32 {a : Nat} (ha : a < U32) (s : Nat) : a >>> s < U32 := by
  rw [Nat.shiftRight_eq_div_pow]
  exact lt_of_le_of_lt (Nat.div_le_self _ _) ha

theorem xorshift_lt {a : Nat} (ha : a < U32) (s : Nat) : xorshift s a < U32 :=
  xor_lt_U32 ha (shiftRight_lt_U32 ha s)

theorem shiftRight_eq_zero_of_lt {a : Nat} (ha : a < U32) {n : Nat} (hn : 32 ≤ n) :
    a >>> n = 0 := by
  rw [Nat.shiftRight_eq_div_pow]
  refine Nat.div_eq_of_lt (lt_of_lt_of_le ?_ (Nat.pow_le_pow_right (by norm_num) hn))
  rwa [← U32_eq]

theorem shiftRight_xor_distrib' (a b n : Nat) : (a ^^^ b) >>> n = a >>> n ^^^ b >>> n := by
  apply Nat.eq_of_testBit_eq
  intro i
  simp [Nat.testBit_shiftRight, Nat.testBit_xor]

theorem shiftRight_shiftRight' (a m n : Nat) : a >>> m >>> n = a >>> (m + n) := by
  simp [Nat.shiftRight_eq_div_pow, Nat.div_div_eq_div_mul, pow_add]

theorem xor_cancel_right' (a k : Nat) : a ^^^ k ^^^ k = a := by
  rw [Nat.xor_assoc, Nat.xor_self, Nat.xor_zero]

theorem xor_right_inj {a b : Nat} (k : Nat) (h : a ^^^ k = b ^^^ k) : a = b := by
  have h2 := congrArg (fun x => x ^^^ k) h
  simpa [xor_cancel_right'] using h2

theorem xorshift16_invol {a : Nat} (ha : a < U32) : xorshift 16 (xorshift 16 a) = a := by
  unfold xorshift
  rw [shiftRight_xor_distrib', shiftRight_shiftRight',
      shiftRight_eq_zero_of_lt ha (by norm_num : 32 ≤ 16 + 16), Nat.xor_zero,
      xor_cancel_right']

theorem xorshift16_inj {a b : Nat} (ha : a < U32) (hb : b < U32)
    (h : xorshift 16 a = xorshift 16 b) : a = b := by
  have h2 := congrArg (xorshift 16) h
  rwa [xorshift16_invol ha, xorshift16_invol hb] at h2

theorem xorshift13_invol {a : Nat} (ha : a < U32) :
    xorshift 13 a ^^^ xorshift 13 a >>> 13 ^^^ xorshift 13 a >>> 26 = a := by
  unfold xorshift
  rw [shiftRight_xor_distrib', shiftRight_xor_distrib', shiftRight_shiftRight',
      shiftRight_shiftRight',
      shiftRight_eq_zero_of_lt ha (by norm_num : 32 ≤ 13 + 26), Nat.xor_zero]
  have h1 : a ^^^ a >>> 13 ^^^ (a >>> 13 ^^^ a >>> (13 + 13)) =
      a ^^^ a >>> (13 + 13) := by
    rw [Nat.xor_assoc a (a >>> 13), ← Nat.xor_assoc (a >>> 13) (a >>> 13),
        Nat.xor_self, Nat.zero_xor]
  rw [h1, xor_cancel_right']

theorem xorshift13_inj {a b : Nat} (ha : a < U32) (hb : b < U32)
    (h : xorshift 13 a = xorshift 13 b) : a = b := by
  have h2 : xorshift 13 a ^^^ xorshift 13 a >>> 13 ^^^ xorshift 13 a >>> 26 =
      xorshift 13 b ^^^ xorshift 13 b >>> 13 ^^^ xorshift 13 b >>> 26 := by rw [h]
  rwa [xorshift13_invol ha, xorshift13_invol hb] at h2

theorem gcd_U32_odd {c : Nat} (hc : c % 2 = 1) : Nat.gcd U32 c = 1 := by
  have h2 : Nat.Coprime 2 c := by
    rw [Nat.coprime_two_left]
    exact Nat.odd_iff.mpr hc
  have h3 := h2.pow_left 32
  simpa [Nat.Coprime, U32_eq] using h3

theorem mulmod_inj {c : Nat} (hc : Nat.gcd U32 c = 1) {a b : Nat}
    (ha : a < U32) (hb : b < U32) (h : a * c % U32 = b * c % U32) : a = b := by
  have h2 : a * c ≡ b * c [MOD U32] := h
  have h3 := Nat.ModEq.cancel_right_of_coprime hc h2
  have h4 : a % U32 = b % U32 := h3
  rwa [Nat.mod_eq_of_lt ha, Nat.mod_eq_of_lt hb] at h4

theorem rotl32_lt {a : Nat} (ha : a < U32) {r : Nat} (hr : r ≤ 32) : rotl32 a r < U32 := by
  unfold rotl32
  have hM : 0 < 2 ^ (32 - r) := Nat.pow_pos (by norm_num)
  have hP : 0 < 2 ^ r := Nat.pow_pos (by norm_num)
  have hPM : 2 ^ (32 - r) * 2 ^ r = U32 := by
    rw [← pow_add, Nat.sub_add_cancel hr, U32_eq]
  have h1 : a % 2 ^ (32 - r) ≤ 2 ^ (32 - r) - 1 :=
    Nat.le_sub_one_of_lt (Nat.mod_lt _ hM)
  have h2 : a / 2 ^ (32 - r) < 2 ^ r := by
    rw [Nat.div_lt_iff_lt_mul hM]
    calc a < U32 := ha
    _ = 2 ^ (32 - r) * 2 ^ r := hPM.symm
    _ = 2 ^ r * 2 ^ (32 - r) := Nat.mul_comm _ _
  have h3 : a % 2 ^ (32 - r) * 2 ^ r ≤ (2 ^ (32 - r) - 1) * 2 ^ r :=
    Nat.mul_le_mul_right _ h1
  have h4 : (2 ^ (32 - r) - 1) * 2 ^ r = U32 - 2 ^ r := by
    rw [Nat.sub_mul, one_mul, hPM]
  have hPle : 2 ^ r ≤ U32 := hPM ▸ Nat.le_mul_of_pos_left _ hM
  calc a % 2 ^ (32 - r) * 2 ^ r + a / 2 ^ (32 - r)
      ≤ (2 ^ (32 - r) - 1) * 2 ^ r + (2 ^ r - 1) :=
        Nat.add_le_add h3 (Nat.le_sub_one_of_lt h2)
  _ = U32 - 2 ^ r + (2 ^ r - 1) := by rw [h4]
  _ < U32 := by omega

theorem rotl32_inj {r : Nat} (hr : r ≤ 32) {a b : Nat} (ha : a < U32) (hb : b < U32)
    (h : rotl32 a r = rotl32 b r) : a = b := by
  unfold rotl32 at h
  have hM : 0 < 2 ^ (32 - r) := Nat.pow_pos (by norm_num)
  have hP : 0 < 2 ^ r := Nat.pow_pos (by norm_num)
  have hPM : 2 ^ (32 - r) * 2 ^ r = U32 := by
    rw [← pow_add, Nat.sub_add_cancel hr, U32_eq]
  have hda : a / 2 ^ (32 - r) < 2 ^ r := by
    rw [Nat.div_lt_iff_lt_mul hM]
    calc a < U32 := ha
    _ = 2 ^ (32 - r) * 2 ^ r := hPM.symm
    _ = 2 ^ r * 2 ^ (32 - r) := Nat.mul_comm _ _
  have hdb : b / 2 ^ (32 - r) < 2 ^ r := by
    rw [Nat.div_lt_iff_lt_mul hM]
    calc b < U32 := hb
    _ = 2 ^ (32 - r) * 2 ^ r := hPM.symm
    _ = 2 ^ r * 2 ^ (32 - r) := Nat.mul_comm _ _
  have key_mod : ∀ x y : Nat, y < 2 ^ r → (x * 2 ^ r + y) % 2 ^ r = y := by
    intro x y hy
    rw [Nat.add_comm, Nat.add_mul_mod_self_right, Nat.mod_eq_of_lt hy]
  have key_div : ∀ x y : Nat, y < 2 ^ r → (x * 2 ^ r + y) / 2 ^ r = x := by
    intro x y hy
    rw [Nat.add_comm, Nat.add_mul_div_right _ _ hP, Nat.div_eq_of_lt hy, Nat.zero_add]
  have hhigh : a / 2 ^ (32 - r) = b / 2 ^ (32 - r) := by
    have h1 : (a % 2 ^ (32 - r) * 2 ^ r + a / 2 ^ (32 - r)) % 2 ^ r
        = (b % 2 ^ (32 - r) * 2 ^ r + b / 2 ^ (32 - r)) % 2 ^ r := congrArg (· % 2 ^ r) h
    rwa [key_mod _ _ hda, key_mod _ _ hdb] at h1
  have hlow : a % 2 ^ (32 - r) = b % 2 ^ (32 - r) := by
    have h1 : (a % 2 ^ (32 - r) * 2 ^ r + a / 2 ^ (32 - r)) / 2 ^ r
        = (b % 2 ^ (32 - r) * 2 ^ r + b / 2 ^ (32 - r)) / 2 ^ r := congrArg (· / 2 ^ r) h
    rwa [key_div _ _ hda, key_div _ _ hdb] at h1
  calc a = a % 2 ^ (32 - r) + 2 ^ (32 - r) * (a / 2 ^ (32 - r)) := (Nat.mod_add_div _ _).symm
  _ = b % 2 ^ (32 - r) + 2 ^ (32 - r) * (b / 2 ^ (32 - r)) := by rw [hlow, hhigh]
  _ = b := Nat.mod_add_div _ _

theorem murmurStep_lt (h k : Nat) : murmurStep h k < U32 := mod_U32_lt _

theorem murmurStep_inj {k a b : Nat} (ha : a < U32) (hb : b < U32)
    (h : murmurStep a k = murmurStep b k) : a = b := by
  unfold murmurStep at h
  have hka : a ^^^ murmurMixK k < U32 := xor_lt_U32 ha (mod_U32_lt _)
  have hkb : b ^^^ murmurMixK k < U32 := xor_lt_U32 hb (mod_U32_lt _)
  have hra : rotl32 (a ^^^ murmurMixK k) 13 < U32 := rotl32_lt hka (by norm_num)
  have hrb : rotl32 (b ^^^ murmurMixK k) 13 < U32 := rotl32_lt hkb (by norm_num)
  have h2 : rotl32 (a ^^^ murmurMixK k) 13 * 5 ≡ rotl32 (b ^^^ murmurMixK k) 13 * 5
      [MOD U32] := by
    have h1 : rotl32 (a ^^^ murmurMixK k) 13 * 5 + 0xe6546b64 ≡
        rotl32 (b ^^^ murmurMixK k) 13 * 5 + 0xe6546b64 [MOD U32] := h
    exact Nat.ModEq.add_right_cancel' _ h1
  have h3 := mulmod_inj (gcd_U32_odd (by norm_num)) hra hrb h2
  have h4 := rotl32_inj (by norm_num) hka hkb h3
  exact xor_right_inj _ h4

theorem murmurBody_lt {h : Nat} (hh : h < U32) (ks : List Nat) : murmurBody h ks < U32 := by
  unfold murmurBody
  induction ks generalizing h with
  | nil => exact hh
  | cons k ks ih => rw [List.foldl_cons]; exact ih (murmurStep_lt h k)

theorem murmurBody_inj (ks : List Nat) {a b : Nat} (ha : a < U32) (hb : b < U32)
    (h : murmurBody a ks = murmurBody b ks) : a = b := by
  unfold murmurBody at h
  induction ks generalizing a b with
  | nil => exact h
  | cons k ks ih =>
    rw [List.foldl_cons, List.foldl_cons] at h
    have h2 := ih (murmurStep_lt a k) (murmurStep_lt b k) h
    exact murmurStep_inj ha hb h2

theorem fmix32_lt (h : Nat) (hh : h < U32) : fmix32 h < U32 := by
  unfold fmix32
  exact xorshift_lt (mod_U32_lt _) 16

theorem fmix32_inj {a b : Nat} (ha : a < U32) (hb : b < U32)
    (h : fmix32 a = fmix32 b) : a = b := by
  unfold fmix32 at h
  have s1a : xorshift 16 a < U32 := xorshift_lt ha 16
  have s1b : xorshift 16 b < U32 := xorshift_lt hb 16
  have s3a : xorshift 13 (xorshift 16 a * 0x85ebca6b % U32) < U32 :=
    xorshift_lt (mod_U32_lt _) 13
  have s3b : xorshift 13 (xorshift 16 b * 0x85ebca6b % U32) < U32 :=
    xorshift_lt (mod_U32_lt _) 13
  have h4 := xorshift16_inj (mod_U32_lt _) (mod_U32_lt _) h
  have h3 := mulmod_inj (gcd_U32_odd (by norm_num)) s3a s3b h4
  have h2 := xorshift13_inj (mod_U32_lt _) (mod_U32_lt _) h3
  have h1 := mulmod_inj (gcd_U32_odd (by norm_num)) s1a s1b h2
  exact xorshift16_inj ha hb h1

theorem murmur_lt (bytes : List Nat) (seed : Nat) : MurmurHash3_x86_32 bytes seed < U32 := by
  unfold MurmurHash3_x86_32
  exact fmix32_lt _ (xor_lt_U32 (by
    by_cases ht : (bytes.drop (bytes.length / 4 * 4)).isEmpty
    · simpa [ht] using murmurBody_lt (mod_U32_lt seed) (leBlocks bytes)
    · simpa [ht] using
        xor_lt_U32 (murmurBody_lt (mod_U32_lt seed) (leBlocks bytes)) (mod_U32_lt _))
    (mod_U32_lt _))

theorem murmur_seed_inj (bytes : List Nat) {s1 s2 : Nat} (h1 : s1 < U32) (h2 : s2 < U32)
    (h : MurmurHash3_x86_32 bytes s1 = MurmurHash3_x86_32 bytes s2) : s1 = s2 := by
  unfold MurmurHash3_x86_32 at h
  have hb1 : murmurBody (s1 % U32) (leBlocks bytes) < U32 :=
    murmurBody_lt (mod_U32_lt s1) _
  have hb2 : murmurBody (s2 % U32) (leBlocks bytes) < U32 :=
    murmurBody_lt (mod_U32_lt s2) _
  by_cases ht : (bytes.drop (bytes.length / 4 * 4)).isEmpty
  · simp only [ht, if_true] at h
    have h3 := fmix32_inj (xor_lt_U32 hb1 (mod_U32_lt _)) (xor_lt_U32 hb2 (mod_U32_lt _)) h
    have h4 := xor_right_inj _ h3
    have h5 := murmurBody_inj _ (mod_U32_lt s1) (mod_U32_lt s2) h4
    rwa [Nat.mod_eq_of_lt h1, Nat.mod_eq_of_lt h2] at h5
  · simp only [ht, if_false] at h
    have hx1 : murmurBody (s1 % U32) (leBlocks bytes) ^^^
        murmurMixK (murmurTailK (bytes.drop (bytes.length / 4 * 4))) < U32 :=
      xor_lt_U32 hb1 (mod_U32_lt _)
    have hx2 : murmurBody (s2 % U32) (leBlocks bytes) ^^^
        murmurMixK (murmurTailK (bytes.drop (bytes.length / 4 * 4))) < U32 :=
      xor_lt_U32 hb2 (mod_U32_lt _)
    have h3 := fmix32_inj (xor_lt_U32 hx1 (mod_U32_lt _)) (xor_lt_U32 hx2 (mod_U32_lt _)) h
    have h4 := xor_right_inj _ h3
    have h5 := xor_right_inj _ h4
    have h6 := murmurBody_inj _ (mod_U32_lt s1) (mod_U32_lt s2) h5
    rwa [Nat.mod_eq_of_lt h1, Nat.mod_eq_of_lt h2] at h6

theorem decodeLE4_encodeLE4 {x : Nat} (hx : x < U32) (rest : List Nat) :
    decodeLE4 (encodeLE4 x ++ rest) = x := by
  rw [U32_eq] at hx
  simp only [encodeLE4, List.cons_append, List.nil_append, decodeLE4]
  omega

/-- Shared helper: on a dirty page with a header and CRC enabled, flush
stamps exactly the Murmur digest of the payload seeded by the truncated
address into the CRC field. -/
theorem flush_crcField (pd : PersistedData) (w : List (Nat × List Nat))
    (hd : pd.is_dirty = true) (hh : pd.is_without_header = false) :
    pageCrcField (flush true pd w).1
      = MurmurHash3_x86_32 (pagePayload pd) (pd.address % U32) := by
  simp only [flush, hd, hh, if_true, Bool.not_false, Bool.and_self, if_pos]
  simpa [pageCrcField, stampCrc] using
    decodeLE4_encodeLE4 (murmur_lt (pagePayload pd) (pd.address % U32)) _

/-- C9: deep_copy_data returns the previously-primary non-inline descriptor
(nil when the primary was the inline one), the newly installed primary
buffer is byte-identical to the buffer before the call (so discarding the
shadow leaves the page byte-identical to before the call), and the cached
node proxy is destroyed by the call. -/
theorem C9_deep_copy_data (p : PageObj) (hlen : p.datap.raw_data.length ≤ p.datap.size) :
    (deep_copy_data p).2 = (if p.primaryIsInline then none else some p.datap) ∧
    (deep_copy_data p).1.datap.raw_data = p.datap.raw_data ∧
    (deep_copy_data p).1.node_proxy = none := by
  refine ⟨rfl, ?_, rfl⟩
  simp [deep_copy_data, List.take_of_length_le hlen]

/-- Witness for C9 at a concrete page object whose primary is the inline
descriptor and whose buffer length equals its size. -/
theorem C9_witness :
    (deep_copy_data pageObjW).2 = none ∧
    (deep_copy_data pageObjW).1.datap.raw_data = pageObjW.datap.raw_data ∧
    (deep_copy_data pageObjW).1.node_proxy = none := by
  have h := C9_deep_copy_data pageObjW (by decide)
  exact ⟨by simpa [pageObjW] using h.1, h.2.1, h.2.2⟩

/-- C5: flush is a no-op when the page is not dirty; when it is dirty and
CRC32 is enabled and the page carries a header, the MurmurHash3_x86_32
digest of the payload (length size - sizeof(header) + 1, seeded with the
page's 32-bit-truncated address) is stamped into the header CRC field,
then the whole page is written, then the dirty bit is cleared, so an
immediate second flush is a no-op. -/
theorem C5_flush (pd : PersistedData) (writes : List (Nat × List Nat))
    (hd : pd.is_dirty = true) (hh : pd.is_without_header = false) :
    (∀ (crcE : Bool) (pd2 : PersistedData) (w2 : List (Nat × List Nat)),
      pd2.is_dirty = false → flush crcE pd2 w2 = (pd2, w2)) ∧
    pageCrcField (flush true pd writes).1
      = MurmurHash3_x86_32 (pagePayload pd) (pd.address % U32) ∧
    (flush true pd writes).2 = writes ++ [(pd.address, (flush true pd writes).1.raw_data)] ∧
    (flush true pd writes).1.is_dirty = false ∧
    flush true (flush true pd writes).1 (flush true pd writes).2
      = ((flush true pd writes).1, (flush true pd writes).2) := by
  have hnop : ∀ (crcE : Bool) (pd2 : PersistedData) (w2 : List (Nat × List Nat)),
      pd2.is_dirty = false → flush crcE pd2 w2 = (pd2, w2) := by
    intro crcE pd2 w2 h2
    simp [flush, h2]
  have hdirty : (flush true pd writes).1.is_dirty = false := by
    simp [flush, hd]
  have hwrite : (flush true pd writes).2
      = writes ++ [(pd.address, (flush true pd writes).1.raw_data)] := by
    simp [flush, hd, hh, stampCrc]
  exact ⟨hnop, flush_crcField pd writes hd hh, hwrite, hdirty, hnop true _ _ hdirty⟩

/-- Witness for C5 at a concrete dirty 16-byte page with CRC enabled. -/
theorem C5_witness :
    pageCrcField (flush true pdW []).1
      = MurmurHash3_x86_32 (pagePayload pdW) (pdW.address % U32) ∧
    flush true (flush true pdW []).1 (flush true pdW []).2
      = ((flush true pdW []).1, (flush true pdW []).2) := by
  have h := C5_flush pdW [] rfl rfl
  exact ⟨h.2.1, h.2.2.2.2⟩

/-- C8 counterexample: the page addresses 0 and 2^32 are distinct and the
two pages carry the same payload, yet flush stamps the same CRC digest
into both pages, because the seed is the address truncated to 32 bits. -/
theorem C8_counterexample :
    pdA.address ≠ pdB.address ∧ pagePayload pdA = pagePayload pdB ∧
    pageCrcField (flush true pdA []).1 = pageCrcField (flush true pdB []).1 := by
  exact ⟨by decide, by decide, by decide⟩

/-- C8 amended: for every payload, the CRC digest stamped by flush differs
between two page addresses whenever they differ modulo 2^32 — the digest
is keyed by the 32-bit truncation of the page's byte-offset address, and
for a fixed payload the hash is injective in that seed. -/
theorem C8_crc_distinct_addresses (pd1 pd2 : PersistedData)
    (w1 w2 : List (Nat × List Nat))
    (h1d : pd1.is_dirty = true) (h1h : pd1.is_without_header = false)
    (h2d : pd2.is_dirty = true) (h2h : pd2.is_without_header = false)
    (hpay : pagePayload pd1 = pagePayload pd2)
    (haddr : pd1.address % U32 ≠ pd2.address % U32) :
    pageCrcField (flush true pd1 w1).1 ≠ pageCrcField (flush true pd2 w2).1 := by
  rw [flush_crcField pd1 w1 h1d h1h, flush_crcField pd2 w2 h2d h2h, hpay]
  intro heq
  exact haddr (murmur_seed_inj _ (mod_U32_lt _) (mod_U32_lt _) heq)

/-- Witness for the amended C8 at the concrete addresses 1 and 2. -/
theorem C8_witness :
    pageCrcField (flush true pdX []).1 ≠ pageCrcField (flush true pdY []).1 :=
  C8_crc_distinct_addresses pdX pdY [] [] rfl rfl rfl rfl (by decide) (by decide)

/-- C7: btree_erase fails with key-not-found whenever the tree is empty —
both when no root page exists (root address zero) and when the root node's
key count is zero — and in either case the returned tree state is the
input state unchanged. -/
theorem C7_btree_erase_empty (deep : BtreeState → Option Nat × Nat × BtreeState)
    (st : BtreeState) :
    (st.rootpage = 0 → btree_erase deep st = some (HAM_KEY_NOT_FOUND, st)) ∧
    (∀ root, fetchPage st st.rootpage = some root → root.node.keys.length = 0 →
      btree_erase deep st = some (HAM_KEY_NOT_FOUND, st)) := by
  constructor
  · intro h
    simp [btree_erase, h]
  · intro root hf hc
    by_cases h0 : st.rootpage = 0
    · simp [btree_erase, h0]
    · simp [btree_erase, h0, hf, hc]

/-- Witness for C7 at a concrete rootless tree and at a concrete tree whose
root node has key count zero. -/
theorem C7_witness :
    btree_erase (fun s => (none, 0, s)) stEmptyRoot = some (HAM_KEY_NOT_FOUND, stEmptyRoot) ∧
    btree_erase (fun s => (none, 0, s)) stZeroCount = some (HAM_KEY_NOT_FOUND, stZeroCount) :=
  ⟨(C7_btree_erase_empty (fun s => (none, 0, s)) stEmptyRoot).1 rfl,
   (C7_btree_erase_empty (fun s => (none, 0, s)) stZeroCount).2 rootZeroPage (by decide) rfl⟩

/-- C1: my_replace_key does NOT roll back when the extended-blob allocation
fails.  Evaluated at the failing input: the allocation fails with
out-of-memory and that error is returned, but the destination key's
previous inline bytes [1,2,3] are already replaced by the source's [9,9,9],
the destination still carries the EXTENDED flag with the source's blob id
200 aliased into it, the destination's old blob 100 has already been freed
from the store and dropped from the extended-key cache, and no new blob
was installed (nextId unchanged). -/
theorem C1_replace_key_failing_input :
    (my_replace_key envOk bsC1 (some [100]) pageC1 0 rhsKeyC1 false).map
      (fun r => (r.status, r.page.node.keys.get? 0, r.bs.blobs.map (fun p => p.1),
                 r.bs.nextId, r.cache))
    = some (HAM_OUT_OF_MEMORY, some ⟨KEY_IS_EXTENDED, 20, 77, [9, 9, 9], 200⟩,
        [200], 300, some []) := by decide

/-- C6: for every successful my_copy_key call whose source key carries the
EXTENDED flag, the extended-blob id stored in the destination afterwards
differs from the source's blob id — it is a freshly allocated id that no
existing blob carries — and apart from that id the destination is the
plain copy of the untouched source. -/
theorem C6_copy_key_fresh_blob (bs : BlobStore) (rhs : IntKey)
    (hwf : ∀ p ∈ bs.blobs, p.1 < bs.nextId)
    (hext : keyIsExtended rhs = true)
    (hok : (my_copy_key bs rhs).1 = 0) :
    (my_copy_key bs rhs).2.2.extRid ≠ rhs.extRid ∧
    (∀ p ∈ bs.blobs, p.1 ≠ (my_copy_key bs rhs).2.2.extRid) ∧
    (my_copy_key bs rhs).2.2 = { rhs with extRid := (my_copy_key bs rhs).2.2.extRid } := by
  rcases hf : bs.blobs.find? (fun p => p.1 == rhs.extRid) with _ | p
  · exfalso
    simp [my_copy_key, hext, blobRead, hf, HAM_BLOB_NOT_FOUND] at hok
  · by_cases hA : bs.allocFails
    · exfalso
      simp [my_copy_key, hext, blobRead, hf, blobAllocate, hA, HAM_OUT_OF_MEMORY] at hok
    · have hres : (my_copy_key bs rhs).2.2 = { rhs with extRid := bs.nextId } := by
        simp [my_copy_key, hext, blobRead, hf, blobAllocate, hA]
      have hmem := List.mem_of_find?_eq_some hf
      have hp : p.1 = rhs.extRid := by
        have h2 := List.find?_some hf
        simpa using h2
      have hlt : rhs.extRid < bs.nextId := hp ▸ hwf p hmem
      refine ⟨?_, ?_, ?_⟩
      · rw [hres]
        simpa using Nat.ne_of_gt hlt
      · intro q hq
        rw [hres]
        simpa using Nat.ne_of_lt (hwf q hq)
      · rw [hres]
  
/-- Witness for C6 at a concrete extended key whose blob 100 exists in a
store with next fresh id 300. -/
theorem C6_witness :
    (my_copy_key bsC6 rhsC6).2.2.extRid ≠ rhsC6.extRid ∧
    (∀ p ∈ bsC6.blobs, p.1 ≠ (my_copy_key bsC6 rhsC6).2.2.extRid) ∧
    (my_copy_key bsC6 rhsC6).2.2
      = { rhsC6 with extRid := (my_copy_key bsC6 rhsC6).2.2.extRid } :=
  C6_copy_key_fresh_blob bsC6 rhsC6 (by decide) (by decide) (by decide)

/-- C10: whenever any of the cursor-uncouple calls in my_merge_pages or
my_shift_pages fails — the page's, the sibling's or the anchor's, with or
without an anchor page in the merge case — the function returns the null
page with every part of the state unchanged and no error recorded in the
database; and an enclosing btree_erase whose rebalance work ends in any
merge call that swallows its error this way (null return, error register
zero) sees no error and reports success even though the rebalance was
abandoned part-way. -/
theorem C10_uncouple_failure_swallowed :
    (∀ (env : Env) (fetch : Nat → Option PageRec) (bs : BlobStore)
       (cache : Option (List Nat)) (page sib : PageRec) (mp : Option Nat),
      env.uncoupleStatus page.self ≠ 0 ∨ env.uncoupleStatus sib.self ≠ 0 →
      my_merge_pages env fetch bs cache page sib 0 mp
        = some ⟨none, page, sib, none, none, bs, cache, 0, mp, []⟩) ∧
    (∀ (env : Env) (fetch : Nat → Option PageRec) (bs : BlobStore)
       (cache : Option (List Nat)) (page sib : PageRec) (anchor : Nat)
       (mp : Option Nat) (ancp : PageRec),
      anchor ≠ 0 → fetch anchor = some ancp →
      env.uncoupleStatus page.self ≠ 0 ∨ env.uncoupleStatus sib.self ≠ 0 ∨
        env.uncoupleStatus ancp.self ≠ 0 →
      my_merge_pages env fetch bs cache page sib anchor mp
        = some ⟨none, page, sib, some ancp, none, bs, cache, 0, mp, []⟩) ∧
    (∀ (env : Env) (bs : BlobStore) (cache : Option (List Nat))
       (page sib anc : PageRec) (anchor : Nat) (mp : Option Nat),
      page.node.keys.length ≠ sib.node.keys.length →
      env.uncoupleStatus page.self ≠ 0 ∨ env.uncoupleStatus sib.self ≠ 0 ∨
        env.uncoupleStatus anc.self ≠ 0 →
      my_shift_pages env bs cache page sib anc anchor mp
        = some ⟨none, page, sib, anc, bs, cache, 0, mp, 0⟩) ∧
    (∀ (env : Env) (fetch : Nat → Option PageRec) (bs : BlobStore)
       (cache : Option (List Nat)) (page sib : PageRec) (anchor : Nat)
       (mp : Option Nat) (rr : MergeResult) (st : BtreeState) (root : PageRec),
      my_merge_pages env fetch bs cache page sib anchor mp = some rr →
      rr.ret = none → rr.err = 0 →
      st.rootpage ≠ 0 → fetchPage st st.rootpage = some root →
      root.node.keys.length ≠ 0 →
      btree_erase (fun s =>
          match my_merge_pages env fetch bs cache page sib anchor mp with
          | some rr2 => (rr2.ret, rr2.err, s)
          | none => (none, 1, s)) st
        = some (HAM_SUCCESS, st)) := by
  refine ⟨?_, ?_, ?_, ?_⟩
  · intro env fetch bs cache page sib mp hu
    by_cases hp : env.uncoupleStatus page.self = 0
    · have hs : env.uncoupleStatus sib.self ≠ 0 := by tauto
      simp [my_merge_pages, hp, hs]
    · simp [my_merge_pages, hp]
  · intro env fetch bs cache page sib anchor mp ancp ha hf hu
    have ha' : (anchor != 0) = true := by simpa using ha
    by_cases hp : env.uncoupleStatus page.self = 0
    · by_cases hs : env.uncoupleStatus sib.self = 0
      · have hA : env.uncoupleStatus ancp.self ≠ 0 := by tauto
        simp [my_merge_pages, ha', hf, hp, hs, hA]
      · simp [my_merge_pages, ha', hf, hp, hs]
    · simp [my_merge_pages, ha', hf, hp]
  · intro env bs cache page sib anc anchor mp hne hu
    by_cases hp : env.uncoupleStatus page.self = 0
    · by_cases hs : env.uncoupleStatus sib.self = 0
      · have hA : env.uncoupleStatus anc.self ≠ 0 := by tauto
        simp [my_shift_pages, hne, hp, hs, hA]
      · simp [my_shift_pages, hne, hp, hs]
    · simp [my_shift_pages, hne, hp]
  · intro env fetch bs cache page sib anchor mp rr st root hrr hret herr h0 hroot hc
    simp only [hrr]
    simp [btree_erase, h0, hroot, hc, hret, herr, HAM_SUCCESS]

/-- Witness for C10 on concrete pages: an anchor-less merge whose sibling
uncouple fails, an anchored merge in which only the anchor's uncouple
fails, a shift in which only the anchor's uncouple fails, and an erase
enclosing a merge whose uncouples all fail, which still reports success on
the unchanged tree. -/
theorem C10_witness :
    my_merge_pages envFailSib fetchI bs0 none pgI sbI 0 (some 100)
      = some ⟨none, pgI, sbI, none, none, bs0, none, 0, some 100, []⟩ ∧
    my_merge_pages envFailAnc fetchI bs0 none pgI sbI 400 (some 100)
      = some ⟨none, pgI, sbI, some ancI, none, bs0, none, 0, some 100, []⟩ ∧
    my_shift_pages envFailAnc bs0 none leftP pageP ancP 400 (some 777)
      = some ⟨none, leftP, pageP, ancP, bs0, none, 0, some 777, 0⟩ ∧
    btree_erase (fun s =>
        match my_merge_pages envFail fetchI bs0 none pgI sbI 400 (some 100) with
        | some rr => (rr.ret, rr.err, s)
        | none => (none, 1, s)) stOneKey
      = some (HAM_SUCCESS, stOneKey) :=
  ⟨C10_uncouple_failure_swallowed.1 envFailSib fetchI bs0 none pgI sbI (some 100)
      (Or.inr (by decide)),
   C10_uncouple_failure_swallowed.2.1 envFailAnc fetchI bs0 none pgI sbI 400 (some 100)
      ancI (by decide) (by decide) (Or.inr (Or.inr (by decide))),
   C10_uncouple_failure_swallowed.2.2.1 envFailAnc bs0 none leftP pageP ancP 400
      (some 777) (by decide) (Or.inr (Or.inr (by decide))),
   C10_uncouple_failure_swallowed.2.2.2 envFail fetchI bs0 none pgI sbI 400 (some 100)
      ⟨none, pgI, sbI, some ancI, none, bs0, none, 0, some 100, []⟩ stOneKey rootOneKey
      (by decide) rfl rfl (by decide) (by decide) (by decide)⟩

/-- Shared helper: the link patch of my_merge_pages does not change the
merged page's keys. -/
theorem mergeLink_keys (fetch : Nat → Option PageRec) (p sib : PageRec) (sibSelf : Nat)
    (p2 : PageRec) (o : Option PageRec)
    (h : mergeLink fetch p sib sibSelf = some (p2, o)) : p2.node.keys = p.node.keys := by
  unfold mergeLink at h
  repeat' split at h
  all_goals simp at h
  all_goals obtain ⟨h3, h4⟩ := h
  all_goals subst h3
  all_goals simp

/-- Shared helper: the common tail of my_merge_pages on a successful run
returns the sibling, frees it, empties it and leaves the page's keys as
the concatenation. -/
theorem mergeTail_spec (env : Env) (fetch : Nat → Option PageRec) (bs : BlobStore)
    (cache : Option (List Nat)) (page sib : PageRec) (ancOpt : Option PageRec)
    (pageSelf sibSelf : Nat) (mp : Option Nat) (r : MergeResult)
    (hrun : mergeTail env fetch bs cache page sib ancOpt pageSelf sibSelf mp = some r)
    (herr : r.err = 0) :
    r.ret = some sibSelf ∧ r.freed = [sibSelf] ∧ r.sib.node.keys = [] ∧
    r.page.node.keys = page.node.keys ++ sib.node.keys := by
  unfold mergeTail at hrun
  rcases hM : mergeLink fetch (mergeFilled page sib) sib sibSelf with _ | ⟨page2, other⟩
  · simp only [hM] at hrun
    exact absurd hrun (by simp)
  · simp only [hM] at hrun
    have hkeys : page2.node.keys = page.node.keys ++ sib.node.keys := by
      have h2 := mergeLink_keys _ _ _ _ _ _ hM
      simpa [mergeFilled] using h2
    by_cases hfree : env.freeStatus sibSelf = 0
    · simp only [hfree, bne_self_eq_false, Bool.false_eq_true, if_false] at hrun
      injection hrun with h
      subst h
      exact ⟨rfl, rfl, rfl, hkeys⟩
    · exfalso
      have hbne : (env.freeStatus sibSelf != 0) = true := by
        simpa using hfree
      rw [if_pos hbne] at hrun
      injection hrun with h
      subst h
      simp at herr
      exact hfree herr

/-- C2: on every successful my_merge_pages call, for internal nodes the
anchor separator (at the slot found for the sibling's first key) is first
appended to the page with its child pointer set to the sibling's ptr_left,
incrementing the count by one; then all of the sibling's slots are copied
to the page's tail, so the page's final count is the sum of the two
original counts (plus one for the separator when internal), the sibling's
count becomes zero, and the sibling is freed and returned to the caller. -/
theorem C2_merge_pages (env : Env) (fetch : Nat → Option PageRec) (bs : BlobStore)
    (cache : Option (List Nat)) (page sib : PageRec) (anchor : Nat) (mp : Option Nat)
    (r : MergeResult)
    (hrun : my_merge_pages env fetch bs cache page sib anchor mp = some r)
    (herr : r.err = 0)
    (hu1 : env.uncoupleStatus page.self = 0) (hu2 : env.uncoupleStatus sib.self = 0)
    (hu3 : ∀ a, fetch anchor = some a → env.uncoupleStatus a.self = 0) :
    r.ret = some sib.self ∧ r.freed = [sib.self] ∧ r.sib.node.keys = [] ∧
    (page.node.isLeaf = true → r.page.node.keys = page.node.keys ++ sib.node.keys) ∧
    (page.node.isLeaf = false → ∃ k0 ancp bte,
      sib.node.keys.get? 0 = some k0 ∧ fetch anchor = some ancp ∧
      ancp.node.keys.get? (btree_get_slot ancp.node k0).toNat = some bte ∧
      r.page.node.keys
        = page.node.keys
            ++ ({ (my_copy_key bs bte).2.2 with ptr := sib.node.ptrLeft }
                  :: sib.node.keys)) ∧
    r.page.node.keys.length
      = page.node.keys.length + sib.node.keys.length
        + (if page.node.isLeaf then 0 else 1) := by
  by_cases hleaf : page.node.isLeaf
  · -- leaf merge
    have hT : mergeTail env fetch bs cache page sib
        (if anchor ≠ 0 then fetch anchor else none) page.self sib.self mp = some r := by
      by_cases hanc : anchor = 0
      · simpa [my_merge_pages, hanc, hu1, hu2, hleaf] using hrun
      · have hb : (anchor != 0) = true := by simpa using hanc
        rcases hfa : fetch anchor with _ | ancp
        · simp [my_merge_pages, hb, hfa] at hrun
        · have hu3a := hu3 ancp hfa
          simpa [my_merge_pages, hb, hfa, hu1, hu2, hu3a, hleaf, hanc]
            using hrun
    have hS := mergeTail_spec _ _ _ _ _ _ _ _ _ _ _ hT herr
    refine ⟨hS.1, hS.2.1, hS.2.2.1, fun _ => hS.2.2.2, fun hf => absurd hleaf (by simp [hf]), ?_⟩
    simp [hS.2.2.2, hleaf]
  · -- internal merge
    have hleaf2 : page.node.isLeaf = false := by simpa using hleaf
    by_cases hanc : anchor = 0
    · -- internal merge with no anchor page is stuck in the model
      exfalso
      rcases hk0 : sib.node.keys[0]? with _ | k0 <;>
        simp [my_merge_pages, hanc, hu1, hu2, hleaf2, hk0] at hrun
    · have hb : (anchor != 0) = true := by simpa using hanc
      rcases hfa : fetch anchor with _ | ancp
      · exfalso
        simp [my_merge_pages, hb, hfa] at hrun
      · have hu3a := hu3 ancp hfa
        rcases hk0 : sib.node.keys[0]? with _ | k0
        · exfalso
          simp [my_merge_pages, hb, hfa, hu1, hu2, hu3a, hleaf2, hk0] at hrun
        · by_cases hslot : btree_get_slot ancp.node k0 < 0
          · exfalso
            simp [my_merge_pages, hb, hfa, hu1, hu2, hu3a, hleaf2, hk0, hslot] at hrun
          · rcases hbte : ancp.node.keys[(btree_get_slot ancp.node k0).toNat]?
                with _ | bte
            · exfalso
              simp [my_merge_pages, hb, hfa, hu1, hu2, hu3a, hleaf2, hk0, hslot,
                hbte] at hrun
            · by_cases hcs : (my_copy_key bs bte).1 = 0
              · have hT : mergeTail env fetch (my_copy_key bs bte).2.1 cache
                    { page with node := { page.node with keys := page.node.keys ++
                      [{ (my_copy_key bs bte).2.2 with ptr := sib.node.ptrLeft }] } }
                    sib (some ancp) page.self sib.self mp = some r := by
                  simpa [my_merge_pages, hb, hfa, hu1, hu2, hu3a, hleaf2, hk0, hslot,
                    hbte, hcs] using hrun
                have hS := mergeTail_spec _ _ _ _ _ _ _ _ _ _ _ hT herr
                refine ⟨hS.1, hS.2.1, hS.2.2.1,
                  fun hf => absurd hf (by simp [hleaf2]), ?_, ?_⟩
                · intro _
                  refine ⟨k0, ancp, bte, by simpa [List.get?_eq_getElem?] using hk0,
                    rfl, by simpa [List.get?_eq_getElem?] using hbte, ?_⟩
                  have h4 := hS.2.2.2
                  simpa [List.append_assoc] using h4
                · have h4 := hS.2.2.2
                  simp [h4, hleaf2]
                  omega
              · exfalso
                have hrec : r.err = (my_copy_key bs bte).1 := by
                  have hx : my_merge_pages env fetch bs cache page sib anchor mp
                      = some ⟨none, page, sib, some ancp, none, (my_copy_key bs bte).2.1,
                          cache, (my_copy_key bs bte).1, mp, []⟩ := by
                    have hcb : ((my_copy_key bs bte).1 != 0) = true := by simpa using hcs
                    simp [my_merge_pages, hb, hfa, hu1, hu2, hu3a, hleaf2, hk0, hslot,
                      hbte, hcb]
                  rw [hx] at hrun
                  injection hrun with h
                  subst h
                  rfl
                rw [hrec] at herr
                exact hcs herr

/-- Witness for C2 at a concrete internal-node merge through anchor page
400: counts 2 and 2 merge into 5 (two plus two plus the separator), the
sibling is emptied, freed and returned. -/
theorem C2_witness :
    rC2.ret = some sbI.self ∧ rC2.freed = [sbI.self] ∧ rC2.sib.node.keys = [] ∧
    rC2.page.node.keys.length
      = pgI.node.keys.length + sbI.node.keys.length
        + (if pgI.node.isLeaf then 0 else 1) := by
  have h := C2_merge_pages envOk fetchI bs0 none pgI sbI 400 none rC2 (by decide)
      (by decide) rfl rfl (fun a _ => rfl)
  exact ⟨h.1, h.2.1, h.2.2.1, h.2.2.2.2.2⟩

/-- Shared helper: every successful completion of the sibling-to-page bulk
move runs the cleanup epilogue and reports exactly `c` bulk-moved slots. -/
theorem shiftFromSibMove_spec (env : Env) (bs : BlobStore) (cache : Option (List Nat))
    (page sib anc : PageRec) (anchor : Nat) (mp : Option Nat) (intern : Bool) (c : Nat)
    (r : ShiftResult)
    (hrun : shiftFromSibMove env bs cache page sib anc anchor mp intern c = some r)
    (herr : r.err = 0) :
    r.bulkMoved = c ∧ r.page.dirty = true ∧ r.sib.dirty = true ∧ r.anc.dirty = true ∧
    r.mergepage = none ∧ r.ret = none := by
  by_cases hi : intern = true
  · rcases hk : (sib.node.keys.drop c)[0]? with _ | bte2
    · exfalso
      simp [shiftFromSibMove, hi, hk] at hrun
    · by_cases ha : anchor = 0
      · have hT : shiftCleanup
            { page with node := { page.node with keys :=
                page.node.keys ++ sib.node.keys.take c } }
            { sib with node := { sib.node with
                keys := (sib.node.keys.drop c).tail
                ptrLeft := bte2.ptr } }
            anc bs cache c = some r := by
          simpa [shiftFromSibMove, hi, hk, ha] using hrun
        unfold shiftCleanup at hT
        injection hT with h
        subst h
        exact ⟨rfl, rfl, rfl, rfl, rfl, rfl⟩
      · have hb : (anchor != 0) = true := by simpa using ha
        by_cases hs : btree_get_slot anc.node bte2 < 0
        · exfalso
          simp [shiftFromSibMove, hi, hk, hb, hs] at hrun
        · rcases hrk : my_replace_key env bs cache anc
              (btree_get_slot anc.node bte2).toNat bte2 true with _ | rr
          · exfalso
            simp [shiftFromSibMove, hi, hk, hb, hs, hrk] at hrun
          · by_cases hst : rr.status = 0
            · have hT : shiftCleanup
                  { page with node := { page.node with keys :=
                      page.node.keys ++ sib.node.keys.take c } }
                  { sib with node := { sib.node with
                      keys := (sib.node.keys.drop c).tail
                      ptrLeft := bte2.ptr } }
                  rr.page rr.bs rr.cache c = some r := by
                simpa [shiftFromSibMove, hi, hk, hb, hs, hrk, hst] using hrun
              unfold shiftCleanup at hT
              injection hT with h
              subst h
              exact ⟨rfl, rfl, rfl, rfl, rfl, rfl⟩
            · exfalso
              have hsb : (rr.status != 0) = true := by simpa using hst
              have hx : shiftFromSibMove env bs cache page sib anc anchor mp intern c
                  = some ⟨none,
                      { page with node := { page.node with keys :=
                          page.node.keys ++ sib.node.keys.take c } },
                      { sib with node := { sib.node with
                          keys := sib.node.keys.drop c
                          ptrLeft := bte2.ptr } },
                      rr.page, rr.bs, rr.cache, rr.status, mp, c⟩ := by
                simp [shiftFromSibMove, hi, hk, hb, hs, hrk, hsb]
              rw [hx] at hrun
              injection hrun with h
              subst h
              simp at herr
              exact hst herr
  · have hi2 : intern = false := by simpa using hi
    rcases hk : (sib.node.keys.drop c)[0]? with _ | bte2
    · exfalso
      simp [shiftFromSibMove, hi2, hk] at hrun
    · by_cases hs : btree_get_slot anc.node bte2 < 0
      · exfalso
        simp [shiftFromSibMove, hi2, hk, hs] at hrun
      · rcases hrk : my_replace_key env bs cache anc
            (btree_get_slot anc.node bte2).toNat bte2 true with _ | rr
        · exfalso
          simp [shiftFromSibMove, hi2, hk, hs, hrk] at hrun
        · by_cases hst : rr.status = 0
          · have hT : shiftCleanup
                { page with node := { page.node with keys :=
                    page.node.keys ++ sib.node.keys.take c } }
                { sib with node := { sib.node with keys := sib.node.keys.drop c } }
                rr.page rr.bs rr.cache c = some r := by
              simpa [shiftFromSibMove, hi2, hk, hs, hrk, hst] using hrun
            unfold shiftCleanup at hT
            injection hT with h
            subst h
            exact ⟨rfl, rfl, rfl, rfl, rfl, rfl⟩
          · exfalso
            have hsb : (rr.status != 0) = true := by simpa using hst
            have hx : shiftFromSibMove env bs cache page sib anc anchor mp intern c
                = some ⟨none,
                    { page with node := { page.node with keys :=
                        page.node.keys ++ sib.node.keys.take c } },
                    { sib with node := { sib.node with keys := sib.node.keys.drop c } },
                    rr.page, rr.bs, rr.cache, rr.status, mp, c⟩ := by
              simp [shiftFromSibMove, hi2, hk, hs, hrk, hsb]
            rw [hx] at hrun
            injection hrun with h
            subst h
            simp at herr
            exact hst herr

/-- Shared helper: the fields every cleanup result carries. -/
theorem shiftCleanup_fields (p s a : PageRec) (b : BlobStore) (ch : Option (List Nat))
    (m : Nat) (r : ShiftResult) (h : shiftCleanup p s a b ch m = some r) :
    r.bulkMoved = m ∧ r.page.dirty = true ∧ r.sib.dirty = true ∧ r.anc.dirty = true ∧
    r.mergepage = none ∧ r.ret = none := by
  unfold shiftCleanup at h
  injection h with h2
  subst h2
  exact ⟨rfl, rfl, rfl, rfl, rfl, rfl⟩

/-- Shared helper: every successful completion of the page-to-sibling bulk
move runs the cleanup epilogue and reports exactly `c` bulk-moved slots. -/
theorem shiftToSibMove_spec (env : Env) (bs : BlobStore) (cache : Option (List Nat))
    (page sib anc : PageRec) (anchor : Nat) (mp : Option Nat) (intern : Bool) (c : Nat)
    (r : ShiftResult)
    (hrun : shiftToSibMove env bs cache page sib anc anchor mp intern c = some r)
    (herr : r.err = 0) :
    r.bulkMoved = c ∧ r.page.dirty = true ∧ r.sib.dirty = true ∧ r.anc.dirty = true ∧
    r.mergepage = none ∧ r.ret = none := by
  simp only [shiftToSibMove] at hrun
  repeat' split at hrun
  all_goals first
    | exact Option.noConfusion hrun
    | exact shiftCleanup_fields _ _ _ _ _ _ _ hrun
    | (exfalso
       injection hrun with h2
       subst h2
       simp at herr
       simp_all)

/-- Shared helper: the count computation of the sibling-to-page branch:
`c = (count(sib) - count(page)) / 2` in 32-bit arithmetic on the counts at
this point, zero aborting to cleanup, internal nodes moving one less. -/
theorem shiftFromSibBulk_spec (env : Env) (bs : BlobStore) (cache : Option (List Nat))
    (page sib anc : PageRec) (anchor : Nat) (mp : Option Nat) (intern : Bool) (slot : Int)
    (r : ShiftResult)
    (hrun : shiftFromSibBulk env bs cache page sib anc anchor mp intern slot = some r)
    (herr : r.err = 0) :
    r.bulkMoved
      = (if u32sub sib.node.keys.length page.node.keys.length / 2 = 0 then 0
         else if intern then u32sub sib.node.keys.length page.node.keys.length / 2 - 1
         else u32sub sib.node.keys.length page.node.keys.length / 2) ∧
    r.page.dirty = true ∧ r.sib.dirty = true ∧ r.anc.dirty = true ∧
    r.mergepage = none ∧ r.ret = none := by
  by_cases hc : u32sub sib.node.keys.length page.node.keys.length / 2 = 0
  · simp only [shiftFromSibBulk, hc, beq_self_eq_true, if_true] at hrun
    have h := shiftCleanup_fields _ _ _ _ _ _ _ hrun
    refine ⟨?_, h.2.1, h.2.2.1, h.2.2.2.1, h.2.2.2.2.1, h.2.2.2.2.2⟩
    simpa [hc] using h.1
  · have hcb : (u32sub sib.node.keys.length page.node.keys.length / 2 == 0) = false := by
      simpa using hc
    by_cases hi : intern = true
    · simp only [shiftFromSibBulk, hcb, Bool.false_eq_true, if_false, hi, if_true] at hrun
      repeat' split at hrun
      all_goals first
        | exact Option.noConfusion hrun
        | (exfalso
           injection hrun with h2
           subst h2
           simp at herr
           simp_all)
        | (have h := shiftFromSibMove_spec _ _ _ _ _ _ _ _ _ _ _ hrun herr
           refine ⟨?_, h.2.1, h.2.2.1, h.2.2.2.1, h.2.2.2.2.1, h.2.2.2.2.2⟩
           simpa [hc, hi] using h.1)
    · have hi2 : intern = false := by simpa using hi
      simp only [shiftFromSibBulk, hcb, Bool.false_eq_true, if_false, hi2] at hrun
      have h := shiftFromSibMove_spec _ _ _ _ _ _ _ _ _ _ _ hrun herr
      refine ⟨?_, h.2.1, h.2.2.1, h.2.2.2.1, h.2.2.2.2.1, h.2.2.2.2.2⟩
      simpa [hc, hi2] using h.1

/-- Shared helper: the count computation of the page-to-sibling branch,
mirrored. -/
theorem shiftToSibBulk_spec (env : Env) (bs : BlobStore) (cache : Option (List Nat))
    (page sib anc : PageRec) (anchor : Nat) (mp : Option Nat) (intern : Bool) (slot : Int)
    (r : ShiftResult)
    (hrun : shiftToSibBulk env bs cache page sib anc anchor mp intern slot = some r)
    (herr : r.err = 0) :
    r.bulkMoved
      = (if u32sub page.node.keys.length sib.node.keys.length / 2 = 0 then 0
         else if intern then u32sub page.node.keys.length sib.node.keys.length / 2 - 1
         else u32sub page.node.keys.length sib.node.keys.length / 2) ∧
    r.page.dirty = true ∧ r.sib.dirty = true ∧ r.anc.dirty = true ∧
    r.mergepage = none ∧ r.ret = none := by
  by_cases hc : u32sub page.node.keys.length sib.node.keys.length / 2 = 0
  · simp only [shiftToSibBulk, hc, beq_self_eq_true, if_true] at hrun
    have h := shiftCleanup_fields _ _ _ _ _ _ _ hrun
    refine ⟨?_, h.2.1, h.2.2.1, h.2.2.2.1, h.2.2.2.2.1, h.2.2.2.2.2⟩
    simpa [hc] using h.1
  · have hcb : (u32sub page.node.keys.length sib.node.keys.length / 2 == 0) = false := by
      simpa using hc
    by_cases hi : intern = true
    · simp only [shiftToSibBulk, hcb, Bool.false_eq_true, if_false, hi, if_true] at hrun
      repeat' split at hrun
      all_goals first
        | exact Option.noConfusion hrun
        | (exfalso
           injection hrun with h2
           subst h2
           simp at herr
           simp_all)
        | (have h := shiftToSibMove_spec _ _ _ _ _ _ _ _ _ _ _ hrun herr
           refine ⟨?_, h.2.1, h.2.2.1, h.2.2.2.1, h.2.2.2.2.1, h.2.2.2.2.2⟩
           simpa [hc, hi] using h.1)
    · have hi2 : intern = false := by simpa using hi
      simp only [shiftToSibBulk, hcb, Bool.false_eq_true, if_false, hi2] at hrun
      have h := shiftToSibMove_spec _ _ _ _ _ _ _ _ _ _ _ hrun herr
      refine ⟨?_, h.2.1, h.2.2.1, h.2.2.2.1, h.2.2.2.2.1, h.2.2.2.2.2⟩
      simpa [hc, hi2] using h.1

/-- Shared helper: the sibling-to-page branch of my_shift_pages.  For
internal nodes the separator pre-rotation first adjusts each count by one;
the bulk count is then computed from the adjusted counts and decremented
once more. -/
theorem shiftFromSib_spec (env : Env) (bs : BlobStore) (cache : Option (List Nat))
    (page sib anc : PageRec) (anchor : Nat) (mp : Option Nat) (intern : Bool)
    (r : ShiftResult)
    (hrun : shiftFromSib env bs cache page sib anc anchor mp intern = some r)
    (herr : r.err = 0) :
    r.bulkMoved
      = (if intern = true
         then (if u32sub (sib.node.keys.length - 1) (page.node.keys.length + 1) / 2 = 0
               then 0
               else u32sub (sib.node.keys.length - 1) (page.node.keys.length + 1) / 2 - 1)
         else u32sub sib.node.keys.length page.node.keys.length / 2) ∧
    r.page.dirty = true ∧ r.sib.dirty = true ∧ r.anc.dirty = true ∧
    r.mergepage = none ∧ r.ret = none := by
  by_cases hi : intern = true
  · simp only [shiftFromSib, hi, if_true] at hrun
    repeat' split at hrun
    all_goals first
      | exact Option.noConfusion hrun
      | (exfalso
         injection hrun with h2
         subst h2
         simp at herr
         simp_all)
      | (have h := shiftFromSibBulk_spec _ _ _ _ _ _ _ _ _ _ _ hrun herr
         refine ⟨?_, h.2.1, h.2.2.1, h.2.2.2.1, h.2.2.2.2.1, h.2.2.2.2.2⟩
         simpa [hi] using h.1)
  · have hi2 : intern = false := by simpa using hi
    simp only [shiftFromSib, hi2, Bool.false_eq_true, if_false] at hrun
    have h := shiftFromSibBulk_spec _ _ _ _ _ _ _ _ _ _ _ hrun herr
    refine ⟨?_, h.2.1, h.2.2.1, h.2.2.2.1, h.2.2.2.2.1, h.2.2.2.2.2⟩
    have hcol : ∀ m : Nat, (if m = 0 then 0 else m) = m := by
      intro m
      by_cases hm : m = 0 <;> simp [hm]
    simpa [hi2, hcol] using h.1

/-- Shared helper: the page-to-sibling branch of my_shift_pages,
mirrored. -/
theorem shiftToSib_spec (env : Env) (bs : BlobStore) (cache : Option (List Nat))
    (page sib anc : PageRec) (anchor : Nat) (mp : Option Nat) (intern : Bool)
    (r : ShiftResult)
    (hrun : shiftToSib env bs cache page sib anc anchor mp intern = some r)
    (herr : r.err = 0) :
    r.bulkMoved
      = (if intern = true
         then (if u32sub (page.node.keys.length - 1) (sib.node.keys.length + 1) / 2 = 0
               then 0
               else u32sub (page.node.keys.length - 1) (sib.node.keys.length + 1) / 2 - 1)
         else u32sub page.node.keys.length sib.node.keys.length / 2) ∧
    r.page.dirty = true ∧ r.sib.dirty = true ∧ r.anc.dirty = true ∧
    r.mergepage = none ∧ r.ret = none := by
  by_cases hi : intern = true
  · simp only [shiftToSib, hi, if_true] at hrun
    repeat' split at hrun
    all_goals first
      | exact Option.noConfusion hrun
      | (exfalso
         injection hrun with h2
         subst h2
         simp at herr
         simp_all)
      | (have h := shiftToSibBulk_spec _ _ _ _ _ _ _ _ _ _ _ hrun herr
         refine ⟨?_, h.2.1, h.2.2.1, h.2.2.2.1, h.2.2.2.2.1, h.2.2.2.2.2⟩
         simpa [hi] using h.1)
  · have hi2 : intern = false := by simpa using hi
    simp only [shiftToSib, hi2, Bool.false_eq_true, if_false] at hrun
    have h := shiftToSibBulk_spec _ _ _ _ _ _ _ _ _ _ _ hrun herr
    refine ⟨?_, h.2.1, h.2.2.1, h.2.2.2.1, h.2.2.2.2.1, h.2.2.2.2.2⟩
    have hcol : ∀ m : Nat, (if m = 0 then 0 else m) = m := by
      intro m
      by_cases hm : m = 0 <;> simp [hm]
    simpa [hi2, hcol] using h.1

theorem u32sub_of_le {a b : Nat} (hba : b ≤ a) (ha : a < U32) : u32sub a b = a - b := by
  simp only [u32sub, U32]
  simp only [U32] at ha
  omega

/-- C3 counterexample: a shift call on two nodes with equal key counts
moves zero slots, as the claim says, but returns immediately without any
cleanup: neither page nor the anchor is marked dirty and the scratchpad
mergepage is left in place, contradicting the claim that cleanup still
runs whenever the moved count is zero. -/
theorem C3_counterexample :
    leftP.node.keys.length = sibEq.node.keys.length ∧
    (my_shift_pages envOk bs0 none leftP sibEq ancP 400 (some 777)).map
      (fun r => (r.bulkMoved, r.page.dirty, r.sib.dirty, r.anc.dirty, r.mergepage))
      = some (0, false, false, false, some 777) :=
  ⟨by decide, by decide⟩

/-- C3 amended: in every successful my_shift_pages call, when the two key
counts are equal the function returns immediately with no slots moved and
no cleanup (nothing marked dirty, mergepage untouched); otherwise the
number of slots bulk-moved is floor((big-small)/2) for leaf nodes, and for
internal nodes one less than the count computed after the separator
pre-rotation has adjusted each count by one (zero when that computation
yields zero), and cleanup always runs: both pages and the anchor are
marked dirty and the scratchpad's mergepage is cleared. -/
theorem C3_shift_pages_amended (env : Env) (bs : BlobStore) (cache : Option (List Nat))
    (page sib anc : PageRec) (anchor : Nat) (mp : Option Nat) (r : ShiftResult)
    (hrun : my_shift_pages env bs cache page sib anc anchor mp = some r)
    (herr : r.err = 0)
    (hu1 : env.uncoupleStatus page.self = 0) (hu2 : env.uncoupleStatus sib.self = 0)
    (hu3 : env.uncoupleStatus anc.self = 0)
    (hn : page.node.keys.length < U32) (hs : sib.node.keys.length < U32) :
    (page.node.keys.length = sib.node.keys.length →
      r = ⟨none, page, sib, anc, bs, cache, 0, mp, 0⟩) ∧
    (page.node.keys.length ≠ sib.node.keys.length →
      r.bulkMoved
        = expectedShiftMoved page.node.keys.length sib.node.keys.length
            (!page.node.isLeaf) ∧
      r.page.dirty = true ∧ r.sib.dirty = true ∧ r.anc.dirty = true ∧
      r.mergepage = none ∧ r.ret = none) := by
  by_cases he : page.node.keys.length = sib.node.keys.length
  · refine ⟨fun _ => ?_, fun hne => absurd he hne⟩
    have hx : my_shift_pages env bs cache page sib anc anchor mp
        = some ⟨none, page, sib, anc, bs, cache, 0, mp, 0⟩ := by
      simp [my_shift_pages, he]
    rw [hx] at hrun
    injection hrun with h
    exact h.symm
  · refine ⟨fun heq => absurd heq he, fun _ => ?_⟩
    have heb : (page.node.keys.length == sib.node.keys.length) = false := by
      simpa using he
    simp only [my_shift_pages, heb, Bool.false_eq_true, if_false, hu1, hu2, hu3,
      bne_self_eq_false] at hrun
    by_cases hge : sib.node.keys.length ≥ page.node.keys.length
    · have hlt : page.node.keys.length < sib.node.keys.length :=
        lt_of_le_of_ne hge he
      simp only [ge_iff_le, hge, if_true] at hrun
      have h := shiftFromSib_spec _ _ _ _ _ _ _ _ _ _ hrun herr
      refine ⟨?_, h.2.1, h.2.2.1, h.2.2.2.1, h.2.2.2.2.1, h.2.2.2.2.2⟩
      rw [h.1]
      unfold expectedShiftMoved
      have hmax : max page.node.keys.length sib.node.keys.length
          = sib.node.keys.length := Nat.max_eq_right (le_of_lt hlt)
      have hmin : min page.node.keys.length sib.node.keys.length
          = page.node.keys.length := Nat.min_eq_left (le_of_lt hlt)
      by_cases hil : page.node.isLeaf
      · simp only [hil, Bool.not_true, Bool.false_eq_true, if_false, hmax, hmin]
        rw [u32sub_of_le (le_of_lt hlt) hs]
      · have hil2 : page.node.isLeaf = false := by simpa using hil
        simp only [hil2, Bool.not_false, if_true, hmax, hmin]
    · have hltn : sib.node.keys.length < page.node.keys.length := by omega
      have hgeb : ¬ sib.node.keys.length ≥ page.node.keys.length := by omega
      simp only [ge_iff_le, hgeb, if_false] at hrun
      have h := shiftToSib_spec _ _ _ _ _ _ _ _ _ _ hrun herr
      refine ⟨?_, h.2.1, h.2.2.1, h.2.2.2.1, h.2.2.2.2.1, h.2.2.2.2.2⟩
      rw [h.1]
      unfold expectedShiftMoved
      have hmax : max page.node.keys.length sib.node.keys.length
          = page.node.keys.length := Nat.max_eq_left (le_of_lt hltn)
      have hmin : min page.node.keys.length sib.node.keys.length
          = sib.node.keys.length := Nat.min_eq_right (le_of_lt hltn)
      by_cases hil : page.node.isLeaf
      · simp only [hil, Bool.not_true, Bool.false_eq_true, if_false, hmax, hmin]
        rw [u32sub_of_le (le_of_lt hltn) hn]
      · have hil2 : page.node.isLeaf = false := by simpa using hil
        simp only [hil2, Bool.not_false, if_true, hmax, hmin]

/-- Witness for the amended C3 at a concrete leaf shift: counts 6 and 8
move one slot and the cleanup marks both pages and the anchor dirty and
clears the mergepage. -/
theorem C3_witness :
    rC3.bulkMoved = expectedShiftMoved leftP.node.keys.length pageP.node.keys.length
      (!leftP.node.isLeaf) ∧
    rC3.page.dirty = true ∧ rC3.sib.dirty = true ∧ rC3.anc.dirty = true ∧
    rC3.mergepage = none :=
  have h := (C3_shift_pages_amended envOk bs0 none leftP pageP ancP 400 (some 777) rC3
    (by decide) (by decide) rfl rfl rfl (by decide) (by decide)).2 (by decide)
  ⟨h.1, h.2.1, h.2.2.1, h.2.2.2.1, h.2.2.2.2.1⟩

/-- C4 counterexample: with both siblings present and neither under-full
(minkeys 4; left sibling 6 keys, right sibling 5) and lanchor = ranchor,
rebalance picks the larger (left) sibling as the shift partner; but the
page itself holds 8 keys, so the subsequent shift moves a key INTO the
larger sibling out of the page: the larger sibling is the destination,
not the source, of the shift. -/
theorem C4_counterexample :
    my_rebalance envOk pageP (some leftP) (some rightP) 200 300 400 400 400 (some 100)
      = RebalanceAction.shiftAct leftP.self pageP.self 400 ∧
    leftP.node.keys.length = 6 ∧ rightP.node.keys.length = 5 ∧
    pageP.node.keys.length = 8 ∧
    (my_shift_pages envOk bs0 none leftP pageP ancP 400 (some 777)).map
      (fun r => (r.page.node.keys.length, r.sib.node.keys.length))
      = some (7, 7) :=
  ⟨by decide, by decide, by decide, by decide, by decide⟩

/-- C4 amended: in rebalance, when both siblings are present and neither
is under-full and lanchor = ranchor, the shift is set up with whichever
sibling has strictly more keys as the partner (ties go to the right
sibling); the direction in which keys then move is decided separately by
the shift itself, by comparing the two page counts. -/
theorem C4_rebalance_tie_picks_larger (env : Env) (page lp rp : PageRec)
    (left right lanchor parentSelf m : Nat)
    (hl : left ≠ 0) (hr : right ≠ 0)
    (hfl : btree_get_minkeys env.maxkeys < lp.node.keys.length)
    (hfr : btree_get_minkeys env.maxkeys < rp.node.keys.length) :
    my_rebalance env page (some lp) (some rp) left right lanchor lanchor parentSelf
      (some m)
      = if lp.node.keys.length ≤ rp.node.keys.length
        then .shiftAct page.self rp.self lanchor
        else .shiftAct lp.self page.self lanchor := by
  have h1 : (left != 0) = true := by simpa using hl
  have h2 : (right != 0) = true := by simpa using hr
  have h3 : ¬ (lp.node.keys.length ≤ btree_get_minkeys env.maxkeys) := by omega
  have h4 : ¬ (rp.node.keys.length ≤ btree_get_minkeys env.maxkeys) := by omega
  simp [my_rebalance, h1, h2, h3, h4]

/-- Witness for the amended C4 at concrete pages: left sibling has 6 keys,
right has 5, both above minkeys 4, so the left sibling is chosen as the
shift partner. -/
theorem C4_witness :
    my_rebalance envOk pageP (some leftP) (some rightP) 200 300 400 400 400 (some 100)
      = RebalanceAction.shiftAct leftP.self pageP.self 400 := by
  have h := C4_rebalance_tie_picks_larger envOk pageP leftP rightP 200 300 400 400 100
    (by decide) (by decide) (by decide) (by decide)
  rw [h]
  decide
